import Mathlib

/-!
Verification development for the OSM routing core (graph model, access rules,
geometric matcher, A* search, and the OSM parser).

Embedding conventions:
* JavaScript numbers are modelled as `ℚ`.  The only transcendental numeric
  primitive, `haversine` (great-circle distance), is passed to every consumer
  as an explicit function parameter `hav : Hav`, exactly as the source imports
  it from the parser module; none of the verified properties depend on its
  value.  Likewise `parseInt` for the `maxspeed` tag is passed as a parameter
  `parseSpeed`.
* A JavaScript `Map` is modelled as an insertion-ordered association list
  (`alGet` / `alSet` mirror `Map.get` / `Map.set`); a JS `Set` is a
  duplicate-free insertion-ordered list.
* `Infinity` appears only as the default of `gScore.get(x) ?? Infinity` and as
  the initial `bestDist`; both are modelled by `Option ℚ` with `none = ∞`
  (`qLtInf`, `qAddInf` mirror the JS `<` and `+` on such values).
* The generator `aStarRoute` is modelled as the full list of steps it yields
  when driven to completion (which is what `runAStarToCompletion` collects).
  The source's `while (openSet.size > 0)` loop terminates because every
  iteration either closes an unclosed adjacency key or shrinks the heap; the
  embedding makes this structural with a fuel argument that provably
  dominates that measure, so the fuel-exhaustion branch is dead code.
* The DOM/XML layer (`DOMParser`, `getElementsByTagName`, attribute access)
  is external to the core; `parseOSM` is embedded over an `OSMDoc` of already
  extracted node/way/relation records with their tag lists, mirroring the
  source from the point where `getTag` and the node/way/relation loops start.
-/

/-- `RoutingMode` from `graph.ts`: `'car' | 'bicycle' | 'pedestrian'`. -/
inductive RoutingMode where
  | car
  | bicycle
  | pedestrian
deriving DecidableEq

/-- `GraphNode` from `graph.ts`. -/
structure GraphNode where
  id : Nat
  lat : ℚ
  lon : ℚ
  barrier : Option String
deriving DecidableEq

/-- `GraphEdge` from `graph.ts` (`from` is a Lean keyword, hence `from_`). -/
structure GraphEdge where
  from_ : Nat
  to_ : Nat
  wayId : Nat
  highway : String
  maxspeed : ℚ
  oneway : Bool
  onewayBicycle : Bool
  isReverse : Bool
  distance : ℚ
  geometry : List (ℚ × ℚ)
  access : Option String
  motorVehicle : Option String
  vehicle : Option String
  bicycle : Option String
  foot : Option String
deriving DecidableEq

/-- `TurnRestriction` from `graph.ts`. -/
structure TurnRestriction where
  fromWayId : Nat
  viaNodeId : Nat
  toWayId : Nat
  type : String
deriving DecidableEq

/-- JS `Map.get`: first (and only) binding of the key. -/
def alGet {α : Type} (m : List (Nat × α)) (k : Nat) : Option α :=
  match m.find? (fun p => p.1 == k) with
  | some p => some p.2
  | none => none

/-- JS `Map.set`: overwrite in place if the key is bound, else append. -/
def alSet {α : Type} (m : List (Nat × α)) (k : Nat) (v : α) : List (Nat × α) :=
  match m with
  | [] => [(k, v)]
  | (k', v') :: rest => if k' = k then (k, v) :: rest else (k', v') :: alSet rest k v

/-- `RoutingGraph` from `graph.ts`: `nodes` and `adjacency` are JS `Map`s. -/
structure RoutingGraph where
  nodes : List (Nat × GraphNode)
  adjacency : List (Nat × List GraphEdge)
  restrictions : List TurnRestriction
deriving DecidableEq

/-- Great-circle distance primitive (`haversine` from `parser.ts`), passed as
a parameter: it is real-valued and transcendental in the source. -/
abbrev Hav := ℚ → ℚ → ℚ → ℚ → ℚ

/-! ## road-types.ts : the access rule engine -/

/-- `CAR_BLOCKING_BARRIERS` from `road-types.ts`. -/
def CAR_BLOCKING_BARRIERS : List String :=
  ["bollard", "block", "cycle_barrier", "bus_trap",
   "kissing_gate", "stile", "turnstile", "planter",
   "height_restrictor", "sally_port", "yes"]

/-- `BICYCLE_BLOCKING_BARRIERS` from `road-types.ts`. -/
def BICYCLE_BLOCKING_BARRIERS : List String :=
  ["block", "kissing_gate", "stile", "turnstile"]

/-- `isBarrierBlocking` from `road-types.ts`.  The JS guard
`if (!node.barrier) return false` is falsy both for an absent tag and for the
empty string, hence the explicit `""` case. -/
def isBarrierBlocking (node : GraphNode) (mode : RoutingMode) : Bool :=
  match node.barrier with
  | none => false
  | some b =>
    if b = "" then false
    else match mode with
      | .car => CAR_BLOCKING_BARRIERS.contains b
      | .bicycle => BICYCLE_BLOCKING_BARRIERS.contains b
      | .pedestrian => false

/-- Per-highway mode permissions (one row of `ROAD_ACCESS`). -/
structure ModeAccess where
  car : Bool
  bicycle : Bool
  pedestrian : Bool
deriving DecidableEq

def accessFor (ra : ModeAccess) (mode : RoutingMode) : Bool :=
  match mode with
  | .car => ra.car
  | .bicycle => ra.bicycle
  | .pedestrian => ra.pedestrian

/-- `ROAD_ACCESS` from `road-types.ts`. -/
def ROAD_ACCESS : List (String × ModeAccess) :=
  [("motorway",       ⟨true,  false, false⟩),
   ("motorway_link",  ⟨true,  false, false⟩),
   ("trunk",          ⟨true,  false, false⟩),
   ("trunk_link",     ⟨true,  false, false⟩),
   ("primary",        ⟨true,  true,  true⟩),
   ("primary_link",   ⟨true,  true,  true⟩),
   ("secondary",      ⟨true,  true,  true⟩),
   ("secondary_link", ⟨true,  true,  true⟩),
   ("tertiary",       ⟨true,  true,  true⟩),
   ("tertiary_link",  ⟨true,  true,  true⟩),
   ("residential",    ⟨true,  true,  true⟩),
   ("unclassified",   ⟨true,  true,  true⟩),
   ("service",        ⟨true,  true,  true⟩),
   ("living_street",  ⟨true,  true,  true⟩),
   ("cycleway",       ⟨false, true,  true⟩),
   ("footway",        ⟨false, false, true⟩),
   ("pedestrian",     ⟨false, false, true⟩),
   ("path",           ⟨false, false, true⟩),
   ("steps",          ⟨false, false, true⟩),
   ("busway",         ⟨false, false, false⟩)]

/-- `DEFAULT_SPEEDS` from `road-types.ts`. -/
def DEFAULT_SPEEDS : List (String × ℚ) :=
  [("motorway", 100), ("motorway_link", 60),
   ("trunk", 80), ("trunk_link", 50),
   ("primary", 50), ("primary_link", 40),
   ("secondary", 50), ("secondary_link", 30),
   ("tertiary", 30), ("tertiary_link", 20),
   ("residential", 30), ("unclassified", 30),
   ("service", 15), ("living_street", 15),
   ("cycleway", 20),
   ("footway", 5), ("pedestrian", 5), ("path", 5), ("steps", 3),
   ("busway", 50)]

/-- String-keyed record lookup (`RECORD[key]`, `undefined` when absent). -/
def alGetS {α : Type} (m : List (String × α)) (k : String) : Option α :=
  match m.find? (fun p => p.1 = k) with
  | some p => some p.2
  | none => none

/-- `DENY_VALUES` from `road-types.ts`. -/
def DENY_VALUES : List String := ["no", "private"]

def denyAccess (v : String) : Bool := DENY_VALUES.contains v

/-- The general `access` tag fall-through at the end of `isEdgeAccessible`. -/
def generalAccess (edge : GraphEdge) : Bool :=
  match edge.access with
  | some v => !denyAccess v
  | none => true

/-- `isEdgeAccessible` from `road-types.ts`. -/
def isEdgeAccessible (edge : GraphEdge) (mode : RoutingMode) : Bool :=
  match alGetS ROAD_ACCESS edge.highway with
  | none => false
  | some roadAccess =>
    if accessFor roadAccess mode = false then false
    else
      match mode with
      | .car =>
        match edge.motorVehicle with
        | some v => !denyAccess v
        | none =>
          match edge.vehicle with
          | some v => !denyAccess v
          | none => generalAccess edge
      | .bicycle =>
        match edge.bicycle with
        | some v => !denyAccess v
        | none =>
          match edge.vehicle with
          | some v => !denyAccess v
          | none => generalAccess edge
      | .pedestrian =>
        match edge.foot with
        | some v => !denyAccess v
        | none => generalAccess edge

/-- `canTraverseDirection` from `road-types.ts` (the `fromNodeId` parameter is
unused in the source as well). -/
def canTraverseDirection (edge : GraphEdge) (_fromNodeId : Nat)
    (mode : RoutingMode) (ignoreRestrictions : Bool) : Bool :=
  if mode = .pedestrian then true
  else if edge.oneway = false then true
  else
    let isAgainstOneway := edge.isReverse
    if mode = .bicycle then
      if isAgainstOneway = false then true else !edge.onewayBicycle
    else
      if ignoreRestrictions then true else !isAgainstOneway

/-- `getTravelSpeed` from `road-types.ts` (km/h). -/
def getTravelSpeed (edge : GraphEdge) (mode : RoutingMode) : ℚ :=
  if mode = .bicycle then 20
  else if mode = .pedestrian then 5
  else if 0 < edge.maxspeed then edge.maxspeed
  else (alGetS DEFAULT_SPEEDS edge.highway).getD 30

/-- `getTravelTime` from `road-types.ts` (seconds). -/
def getTravelTime (edge : GraphEdge) (mode : RoutingMode) : ℚ :=
  let speedKmh := getTravelSpeed edge mode
  let speedMs := speedKmh / (3.6 : ℚ)
  edge.distance / speedMs

/-- `getMaxSpeed` from `road-types.ts` (km/h, heuristic upper bound). -/
def getMaxSpeed (mode : RoutingMode) : ℚ :=
  if mode = .bicycle then 20
  else if mode = .pedestrian then 5
  else 100

/-! ## map-matching.ts : the geometric matcher -/

/-- `SnapResult` from `map-matching.ts`. -/
structure SnapResult where
  nodeId : Nat
  lat : ℚ
  lon : ℚ
  edge : GraphEdge
  distanceToSnap : ℚ
deriving DecidableEq

/-- `Projection` from `map-matching.ts`. -/
structure Projection where
  x : ℚ
  y : ℚ
  t : ℚ
deriving DecidableEq

/-- `projectPointOnSegment` from `map-matching.ts`. -/
def projectPointOnSegment (px py ax ay bx by_ : ℚ) : Projection :=
  let dx := bx - ax
  let dy := by_ - ay
  let lenSq := dx * dx + dy * dy
  if lenSq = 0 then { x := ax, y := ay, t := 0 }
  else
    let t0 := ((px - ax) * dx + (py - ay) * dy) / lenSq
    let t := max 0 (min 1 t0)
    { x := ax + t * dx, y := ay + t * dy, t := t }

/-- `a < b` where either side may be `Infinity` (`none`). -/
def qLtInf : Option ℚ → Option ℚ → Bool
  | none, _ => false
  | some _, none => true
  | some a, some b => decide (a < b)

/-- `a + q` where `a` may be `Infinity` (`none`). -/
def qAddInf : Option ℚ → ℚ → Option ℚ
  | none, _ => none
  | some a, q => some (a + q)

/-- Loop state of `snapToRoad`: `bestDist` starts at `Infinity`, `bestEdge`
at `null`, `seen` is the dedup `Set` keyed by `wayId-from-to`. -/
structure SnapState where
  bestDist : Option ℚ
  bestLat : ℚ
  bestLon : ℚ
  bestEdge : Option GraphEdge
  seen : List (Nat × Nat × Nat)
deriving DecidableEq

/-- Consecutive geometry point pairs `(geo[i], geo[i+1])` for
`i = 0 .. geo.length - 2`. -/
def segPairs : List (ℚ × ℚ) → List ((ℚ × ℚ) × (ℚ × ℚ))
  | [] => []
  | [_] => []
  | a :: b :: rest => (a, b) :: segPairs (b :: rest)

/-- One iteration of the inner segment loop of `snapToRoad`: project the
query point on the segment `a`–`b`, measure, and take the new best when
strictly closer (`dist < bestDist`, with `bestDist` starting at
`Infinity`). -/
def snapSegStep (hav : Hav) (lat lon : ℚ) (edge : GraphEdge)
    (a b : ℚ × ℚ) (st : SnapState) : SnapState :=
  let proj := projectPointOnSegment lat lon a.1 a.2 b.1 b.2
  let dist := hav lat lon proj.x proj.y
  if qLtInf (some dist) st.bestDist then
    { st with bestDist := some dist, bestLat := proj.x, bestLon := proj.y,
              bestEdge := some edge }
  else st

/-- Inner loop of `snapToRoad` over one edge's geometry segments. -/
def snapSegs (hav : Hav) (lat lon : ℚ) (edge : GraphEdge) :
    List ((ℚ × ℚ) × (ℚ × ℚ)) → SnapState → SnapState
  | [], st => st
  | (a, b) :: rest, st =>
    snapSegs hav lat lon edge rest (snapSegStep hav lat lon edge a b st)

/-- The dedup key `${edge.wayId}-${edge.from}-${edge.to}` of `snapToRoad`
(ids are naturals, so the tuple is injective exactly like the string). -/
def edgeKey (edge : GraphEdge) : Nat × Nat × Nat :=
  (edge.wayId, edge.from_, edge.to_)

/-- Middle loop of `snapToRoad` over the edges of one adjacency bucket:
dedup by `wayId-from-to` key, then the accessibility filter. -/
def snapEdges (hav : Hav) (lat lon : ℚ) (mode : RoutingMode) :
    List GraphEdge → SnapState → SnapState
  | [], st => st
  | edge :: rest, st =>
    if edgeKey edge ∈ st.seen then snapEdges hav lat lon mode rest st
    else
      let st1 := { st with seen := st.seen ++ [edgeKey edge] }
      if isEdgeAccessible edge mode then
        snapEdges hav lat lon mode rest
          (snapSegs hav lat lon edge (segPairs edge.geometry) st1)
      else snapEdges hav lat lon mode rest st1

/-- Outer loop of `snapToRoad` over `graph.adjacency.values()`. -/
def snapAdj (hav : Hav) (lat lon : ℚ) (mode : RoutingMode) :
    List (Nat × List GraphEdge) → SnapState → SnapState
  | [], st => st
  | (_, edges) :: rest, st =>
    snapAdj hav lat lon mode rest (snapEdges hav lat lon mode edges st)

def defaultNode : GraphNode := { id := 0, lat := 0, lon := 0, barrier := none }

/-- `snapToRoad` from `map-matching.ts`.  The source reads
`graph.nodes.get(bestEdge.from)!` with a non-null assertion; the embedding
uses `getD defaultNode` for that assertion, and `bestDist` is `some` whenever
`bestEdge` is (both are set together), so `getD 0` mirrors the number it
returns. -/
def snapToRoad (hav : Hav) (lat lon : ℚ) (graph : RoutingGraph)
    (mode : RoutingMode) : Option SnapResult :=
  let st := snapAdj hav lat lon mode graph.adjacency
    { bestDist := none, bestLat := 0, bestLon := 0, bestEdge := none, seen := [] }
  match st.bestEdge with
  | none => none
  | some bestEdge =>
    let fromNode := (alGet graph.nodes bestEdge.from_).getD defaultNode
    let toNode := (alGet graph.nodes bestEdge.to_).getD defaultNode
    let distToFrom := hav st.bestLat st.bestLon fromNode.lat fromNode.lon
    let distToTo := hav st.bestLat st.bestLon toNode.lat toNode.lon
    let nodeId := if distToFrom ≤ distToTo then bestEdge.from_ else bestEdge.to_
    some { nodeId := nodeId, lat := st.bestLat, lon := st.bestLon,
           edge := bestEdge, distanceToSnap := st.bestDist.getD 0 }

/-- Result of `findSnapSegment` from `map-matching.ts`. -/
structure SnapSeg where
  segmentIndex : Nat
  projLat : ℚ
  projLon : ℚ
deriving DecidableEq

/-- The `for` loop of `findSnapSegment`: running best (`bestDist` starts at
`Infinity`, modelled by `none`) over the geometry segments, `i` counting the
segment index. -/
def findSnapSegmentAux (hav : Hav) (snapLat snapLon : ℚ) (i : Nat)
    (best : Option ℚ × SnapSeg) : List ((ℚ × ℚ) × (ℚ × ℚ)) → SnapSeg
  | [] => best.2
  | (a, b) :: rest =>
    let proj := projectPointOnSegment snapLat snapLon a.1 a.2 b.1 b.2
    let dist := hav snapLat snapLon proj.x proj.y
    let best' :=
      if qLtInf (some dist) best.1 then (some dist, ⟨i, proj.x, proj.y⟩)
      else best
    findSnapSegmentAux hav snapLat snapLon (i + 1) best' rest

/-- `findSnapSegment` from `map-matching.ts`: `bestIdx = 0`, best point
initialised from `geometry[0]` (`getD` models the JS out-of-range read on an
empty geometry, which the source never performs). -/
def findSnapSegment (hav : Hav) (snapLat snapLon : ℚ)
    (geometry : List (ℚ × ℚ)) : SnapSeg :=
  let g0 := geometry.getD 0 (0, 0)
  findSnapSegmentAux hav snapLat snapLon 0 (none, ⟨0, g0.1, g0.2⟩)
    (segPairs geometry)

/-- `trimGeometryFromStart` from `map-matching.ts`: the snap point followed
by all geometry points after the snap segment. -/
def trimGeometryFromStart (hav : Hav) (geometry : List (ℚ × ℚ))
    (snapLat snapLon : ℚ) : List (ℚ × ℚ) :=
  let s := findSnapSegment hav snapLat snapLon geometry
  (s.projLat, s.projLon) :: geometry.drop (s.segmentIndex + 1)

/-- `trimGeometryToEnd` from `map-matching.ts`: all geometry points up to and
including the snap segment start, followed by the snap point. -/
def trimGeometryToEnd (hav : Hav) (geometry : List (ℚ × ℚ))
    (snapLat snapLon : ℚ) : List (ℚ × ℚ) :=
  let s := findSnapSegment hav snapLat snapLon geometry
  geometry.take (s.segmentIndex + 1) ++ [(s.projLat, s.projLon)]

def defaultEdge : GraphEdge :=
  { from_ := 0, to_ := 0, wayId := 0, highway := "", maxspeed := 0,
    oneway := false, onewayBicycle := false, isReverse := false,
    distance := 0, geometry := [], access := none, motorVehicle := none,
    vehicle := none, bicycle := none, foot := none }

/-- `trimRouteToSnapPoints` from `map-matching.ts`, embedded against an
explicit object store to make the mutation structure of the source visible:
edge objects live in a store (a list indexed by address), the input `path`
is a list of addresses of existing edge objects, and
`path.map(e => ({...e, geometry: [...e.geometry]}))` allocates fresh copies
at addresses `store.length, store.length+1, ...`.  The two geometry
assignments (`edges[0].geometry = ...`, `edges[lastIdx].geometry = ...`)
are `List.set` writes at those fresh addresses.  The returned pair is the
store after the call and the addresses of the returned `TrimmedRoute`
edges.  Inner coordinate pairs are shared between original and copy in JS,
but no code path writes through them, so they are plain values here. -/
def trimRouteToSnapPoints (hav : Hav) (store : List GraphEdge)
    (path : List Nat) (originSnap destinationSnap : SnapResult) :
    List GraphEdge × List Nat :=
  if path = [] then (store, [])
  else
    let n := store.length
    let copies := path.map (fun a => store.getD a defaultEdge)
    let store1 := store ++ copies
    let addrs := (List.range path.length).map (fun j => n + j)
    if path.length = 1 then
      let a0 := n
      let geo := (store1.getD a0 defaultEdge).geometry
      let originSeg := findSnapSegment hav originSnap.lat originSnap.lon geo
      let destSeg := findSnapSegment hav destinationSnap.lat destinationSnap.lon geo
      let gO := geo.getD originSeg.segmentIndex (0, 0)
      let gD := geo.getD destSeg.segmentIndex (0, 0)
      let originFirst : Bool :=
        decide (originSeg.segmentIndex < destSeg.segmentIndex) ||
        (decide (originSeg.segmentIndex = destSeg.segmentIndex) &&
         decide (hav gO.1 gO.2 originSeg.projLat originSeg.projLon ≤
                 hav gD.1 gD.2 destSeg.projLat destSeg.projLon))
      let newGeo :=
        if originFirst then
          trimGeometryToEnd hav
            (trimGeometryFromStart hav geo originSnap.lat originSnap.lon)
            destinationSnap.lat destinationSnap.lon
        else
          trimGeometryToEnd hav
            (trimGeometryFromStart hav geo destinationSnap.lat destinationSnap.lon)
            originSnap.lat originSnap.lon
      let store2 := store1.set a0 { (store1.getD a0 defaultEdge) with geometry := newGeo }
      (store2, addrs)
    else
      let a0 := n
      let firstEdge := store1.getD a0 defaultEdge
      let newFirstGeo :=
        if originSnap.nodeId = firstEdge.from_ then
          trimGeometryFromStart hav firstEdge.geometry originSnap.lat originSnap.lon
        else
          trimGeometryToEnd hav firstEdge.geometry originSnap.lat originSnap.lon
      let store2 := store1.set a0 { firstEdge with geometry := newFirstGeo }
      let aL := n + (path.length - 1)
      let lastEdge := store2.getD aL defaultEdge
      let newLastGeo :=
        if destinationSnap.nodeId = lastEdge.to_ then
          trimGeometryToEnd hav lastEdge.geometry destinationSnap.lat destinationSnap.lon
        else
          trimGeometryFromStart hav lastEdge.geometry destinationSnap.lat destinationSnap.lon
      let store3 := store2.set aL { lastEdge with geometry := newLastGeo }
      (store3, addrs)

/-! ## a-star.ts : the search engine -/

/-- `AStarStep` from `a-star.ts` (`explore` / `done` / `no-route`). -/
inductive AStarStep where
  | explore (edge : GraphEdge) (fromNodeId toNodeId : Nat)
  | done (path : List GraphEdge) (pathNodeIds : List Nat) (totalTime : ℚ)
  | noRoute
deriving DecidableEq

def isTerminal : AStarStep → Bool
  | .explore _ _ _ => false
  | .done _ _ _ => true
  | .noRoute => true

/-- `CameFromEntry` from `a-star.ts`. -/
structure CameFromEntry where
  prevNodeId : Nat
  edge : GraphEdge
  prevWayId : Nat
deriving DecidableEq

/-- One swap `[a[i], a[j]] = [a[j], a[i]]` on the heap array. -/
def listSwap (l : List (ℚ × Nat)) (i j : Nat) : List (ℚ × Nat) :=
  let vi := l.getD i (0, 0)
  let vj := l.getD j (0, 0)
  (l.set i vj).set j vi

/-- `MinHeap.bubbleUp`: `i` moves to its parent `(i-1)/2` while strictly
smaller, so `i` itself bounds the iteration count; the fuel argument makes
that structural and `heapPush` passes `i + 1`. -/
def bubbleUpF : Nat → List (ℚ × Nat) → Nat → List (ℚ × Nat)
  | 0, l, _ => l
  | fuel + 1, l, i =>
    if i = 0 then l
    else
      let parent := (i - 1) / 2
      if (l.getD parent (0, 0)).1 ≤ (l.getD i (0, 0)).1 then l
      else bubbleUpF fuel (listSwap l i parent) parent

/-- `MinHeap.push`: append then bubble up from the last index. -/
def heapPush (l : List (ℚ × Nat)) (key : ℚ) (value : Nat) : List (ℚ × Nat) :=
  bubbleUpF (l.length + 1) (l ++ [(key, value)]) l.length

/-- The `smallest` computation of one `MinHeap.sinkDown` iteration. -/
def heapSmallest (l : List (ℚ × Nat)) (i : Nat) : Nat :=
  let n := l.length
  let left := 2 * i + 1
  let right := 2 * i + 2
  let s1 := if left < n ∧ (l.getD left (0, 0)).1 < (l.getD i (0, 0)).1 then left else i
  if right < n ∧ (l.getD right (0, 0)).1 < (l.getD s1 (0, 0)).1 then right else s1

/-- `MinHeap.sinkDown`: `i` strictly increases towards `l.length` each
iteration, so `l.length` bounds the iteration count; `heapPop` passes
`l.length + 1` as fuel. -/
def sinkDownF : Nat → List (ℚ × Nat) → Nat → List (ℚ × Nat)
  | 0, l, _ => l
  | fuel + 1, l, i =>
    let s := heapSmallest l i
    if s = i then l else sinkDownF fuel (listSwap l i s) s

/-- `MinHeap.pop`: return the root value; move the popped last element to the
root and sink it down when items remain. -/
def heapPop (l : List (ℚ × Nat)) : Option (Nat × List (ℚ × Nat)) :=
  match l with
  | [] => none
  | top :: rest =>
    match rest with
    | [] => some (top.2, [])
    | _ :: _ =>
      let last := (top :: rest).getLastD (0, 0)
      let shrunk := ((top :: rest).dropLast).set 0 last
      some (top.2, sinkDownF (shrunk.length + 1) shrunk 0)

/-- `isRestricted` from `a-star.ts`: linear scan, exact triple match, and
only a type beginning `no_` rejects (an `only_*` type matching the triple
does not end the scan). -/
def isRestricted (graph : RoutingGraph) (fromWayId viaNodeId toWayId : Nat) : Bool :=
  graph.restrictions.any fun r =>
    decide (r.fromWayId = fromWayId) && decide (r.viaNodeId = viaNodeId) &&
    decide (r.toWayId = toWayId) && "no_".data.isPrefixOf r.type.data

/-- The turn-restriction guard of the neighbor loop in `aStarRoute`:
`mode === 'car' && currentWayId !== 0 && !options.ignoreRestrictions`
followed by `isRestricted(graph, currentWayId, currentId, edge.wayId)`. -/
def restrictionRejects (graph : RoutingGraph) (mode : RoutingMode)
    (ignoreRestrictions : Bool) (currentWayId viaNodeId toWayId : Nat) : Bool :=
  decide (mode = .car) && !(decide (currentWayId = 0)) && !ignoreRestrictions &&
    isRestricted graph currentWayId viaNodeId toWayId

/-- The barrier guard of the neighbor loop in `aStarRoute`:
`if (!options.ignoreRestrictions) { const toNode = graph.nodes.get(toNodeId);
if (toNode && isBarrierBlocking(toNode, mode)) continue; }`. -/
def barrierRejects (graph : RoutingGraph) (mode : RoutingMode)
    (ignoreRestrictions : Bool) (toNodeId : Nat) : Bool :=
  !ignoreRestrictions &&
    (match alGet graph.nodes toNodeId with
     | some toNode => isBarrierBlocking toNode mode
     | none => false)

/-- `maxSpeedMs` and the `heuristic` closure of `aStarRoute`.  The source
captures `endNode` (present by the top-of-function check) and reads
`graph.nodes.get(nodeId)!` under a non-null assertion; `getD defaultNode`
models both assertions. -/
def heuristic (graph : RoutingGraph) (hav : Hav) (mode : RoutingMode)
    (endNodeId nodeId : Nat) : ℚ :=
  let endNode := (alGet graph.nodes endNodeId).getD defaultNode
  let node := (alGet graph.nodes nodeId).getD defaultNode
  hav node.lat node.lon endNode.lat endNode.lon / (getMaxSpeed mode / (3.6 : ℚ))

/-- Mutable state of the `aStarRoute` loop. -/
structure AStarState where
  gScore : List (Nat × ℚ)
  cameFrom : List (Nat × CameFromEntry)
  openSet : List (ℚ × Nat)
  closed : List Nat
deriving DecidableEq

/-- `const toNodeId = edge.from === currentId ? edge.to : edge.from`:
the node a neighbor edge leads to from the node being expanded. -/
def targetOf (edge : GraphEdge) (currentId : Nat) : Nat :=
  if edge.from_ = currentId then edge.to_ else edge.from_

/-- The relaxation tail of the neighbor loop body of `aStarRoute`:
`tentativeG = currentG + getTravelTime(edge, mode)` (written out at both use
sites here instead of the source's local `const`), and when it strictly
improves `gScore.get(toNodeId) ?? Infinity`, record score and predecessor
and push onto the open set keyed by `tentativeG + heuristic(toNodeId)`.
The inner `none` case is unreachable (`qLtInf none _ = false`). -/
def relaxStep (graph : RoutingGraph) (hav : Hav) (mode : RoutingMode)
    (endNodeId currentId : Nat) (currentG : Option ℚ) (edge : GraphEdge)
    (toNodeId : Nat) (st : AStarState) : AStarState :=
  if qLtInf (qAddInf currentG (getTravelTime edge mode))
      (alGet st.gScore toNodeId) then
    match qAddInf currentG (getTravelTime edge mode) with
    | some tg =>
      { gScore := alSet st.gScore toNodeId tg
        cameFrom := alSet st.cameFrom toNodeId ⟨currentId, edge, edge.wayId⟩
        openSet := heapPush st.openSet
          (tg + heuristic graph hav mode endNodeId toNodeId) toNodeId
        closed := st.closed }
    | none => st
  else st

/-- The `for (const edge of neighbors)` loop body of `aStarRoute`, processing
the remaining neighbor edges against the current state and collecting the
`explore` steps it yields.  `currentG` and `currentWayId` are the values the
source reads once before the loop. -/
def expandNode (graph : RoutingGraph) (hav : Hav) (mode : RoutingMode)
    (ignoreRestrictions : Bool) (endNodeId currentId currentWayId : Nat)
    (currentG : Option ℚ) :
    List GraphEdge → AStarState → List AStarStep × AStarState
  | [], st => ([], st)
  | edge :: rest, st =>
    if isEdgeAccessible edge mode = false then
      expandNode graph hav mode ignoreRestrictions endNodeId currentId
        currentWayId currentG rest st
    else
      if canTraverseDirection edge currentId mode ignoreRestrictions = false then
        expandNode graph hav mode ignoreRestrictions endNodeId currentId
          currentWayId currentG rest st
      else if restrictionRejects graph mode ignoreRestrictions currentWayId
          currentId edge.wayId then
        expandNode graph hav mode ignoreRestrictions endNodeId currentId
          currentWayId currentG rest st
      else if barrierRejects graph mode ignoreRestrictions
          (targetOf edge currentId) then
        expandNode graph hav mode ignoreRestrictions endNodeId currentId
          currentWayId currentG rest st
      else
        let next := expandNode graph hav mode ignoreRestrictions endNodeId
          currentId currentWayId currentG rest
          (relaxStep graph hav mode endNodeId currentId currentG edge
            (targetOf edge currentId) st)
        (AStarStep.explore edge currentId (targetOf edge currentId) :: next.1,
          next.2)

/-- The path-reconstruction `while (cameFrom.has(cur))` walk, in the push
order of the source (edges and node ids back-to-front, reversed by the
caller).  The predecessor links of an actual run are acyclic with distinct
keys, so the walk visits at most `cameFrom.length` entries; the fuel
argument makes that structural and the caller passes `cameFrom.length + 1`. -/
def walkBack (cameFrom : List (Nat × CameFromEntry)) :
    Nat → Nat → List GraphEdge × List Nat
  | _, 0 => ([], [])
  | cur, fuel + 1 =>
    match alGet cameFrom cur with
    | none => ([], [])
    | some entry =>
      let next := walkBack cameFrom entry.prevNodeId fuel
      (entry.edge :: next.1, cur :: next.2)

/-- The `while (openSet.size > 0)` loop of `aStarRoute`, yielding the list of
remaining steps.  Fuel is an upper bound on the remaining iteration count
(see `aStarRoute`); the `0` branch is dead code for the fuel the callers
pass. -/
def aStarLoopF (graph : RoutingGraph) (hav : Hav) (mode : RoutingMode)
    (ignoreRestrictions : Bool) (startNodeId endNodeId : Nat) :
    Nat → AStarState → List AStarStep
  | 0, _ => []
  | fuel + 1, st =>
    match heapPop st.openSet with
    | none => [AStarStep.noRoute]
    | some (currentId, rest) =>
      if currentId ∈ st.closed then
        aStarLoopF graph hav mode ignoreRestrictions startNodeId endNodeId fuel
          { st with openSet := rest }
      else
        if currentId = endNodeId then
          let walked := walkBack st.cameFrom endNodeId (st.cameFrom.length + 1)
          [AStarStep.done walked.1.reverse ((walked.2 ++ [startNodeId]).reverse)
            ((alGet st.gScore endNodeId).getD 0)]
        else
          let currentG := alGet st.gScore currentId
          let currentWayId :=
            match alGet st.cameFrom currentId with
            | some entry => entry.edge.wayId
            | none => 0
          match alGet graph.adjacency currentId with
          | none =>
            aStarLoopF graph hav mode ignoreRestrictions startNodeId endNodeId
              fuel { st with openSet := rest, closed := currentId :: st.closed }
          | some neighbors =>
            let expanded := expandNode graph hav mode ignoreRestrictions
              endNodeId currentId currentWayId currentG neighbors
              { st with openSet := rest, closed := currentId :: st.closed }
            expanded.1 ++
              aStarLoopF graph hav mode ignoreRestrictions startNodeId endNodeId
                fuel expanded.2

/-- Total number of edges in the adjacency map. -/
def edgeCount (graph : RoutingGraph) : Nat :=
  (graph.adjacency.map (fun kv => kv.2.length)).sum

/-- Fuel dominating the loop's iteration count: every iteration either
closes a not-yet-closed adjacency key (at most `adjacency.length + 1` times,
each growing the heap by at most `edgeCount`) or strictly shrinks the heap. -/
def aStarFuel (graph : RoutingGraph) (st : AStarState) : Nat :=
  st.openSet.length + (graph.adjacency.length + 1) * (edgeCount graph + 1) + 1

/-- `aStarRoute` from `a-star.ts`, as the full step sequence the generator
yields when driven to completion. -/
def aStarRoute (graph : RoutingGraph) (hav : Hav) (mode : RoutingMode)
    (ignoreRestrictions : Bool) (startNodeId endNodeId : Nat) : List AStarStep :=
  match alGet graph.nodes endNodeId, alGet graph.nodes startNodeId with
  | some _, some _ =>
    if startNodeId = endNodeId then [AStarStep.done [] [startNodeId] 0]
    else
      let st0 : AStarState :=
        { gScore := [(startNodeId, 0)]
          cameFrom := []
          openSet := heapPush [] (heuristic graph hav mode endNodeId startNodeId)
            startNodeId
          closed := [] }
      aStarLoopF graph hav mode ignoreRestrictions startNodeId endNodeId
        (aStarFuel graph st0) st0
  | _, _ => [AStarStep.noRoute]

/-! ## graph.ts / parser : `parseOSM`

The XML transport (`DOMParser`, `getElementsByTagName`, attribute access and
the `NaN` filtering of unparseable node attributes) is outside the core; the
embedding starts from already extracted records.  `getTagL` mirrors `getTag`
(first `tag` child with the key, `null` — here `none` — when absent). -/

structure OSMNode where
  id : Nat
  lat : ℚ
  lon : ℚ
  tags : List (String × String)
deriving DecidableEq

structure OSMWay where
  id : Nat
  tags : List (String × String)
  nds : List Nat
deriving DecidableEq

structure OSMMember where
  role : String
  mtype : String
  ref : Nat
deriving DecidableEq

structure OSMRelation where
  tags : List (String × String)
  members : List OSMMember
deriving DecidableEq

structure OSMDoc where
  nodes : List OSMNode
  ways : List OSMWay
  relations : List OSMRelation
deriving DecidableEq

/-- `getTag` from `parser.ts`: the first tag with key `k`, if any. -/
def getTagL (tags : List (String × String)) (k : String) : Option String :=
  match tags.find? (fun p => p.1 = k) with
  | some p => some p.2
  | none => none

/-- Step 1 of `parseOSM`: the id-keyed map of all parsed nodes, with the
`barrier` tag captured when present. -/
def buildAllNodes (ns : List OSMNode) : List (Nat × GraphNode) :=
  ns.foldl
    (fun m n =>
      alSet m n.id
        { id := n.id, lat := n.lat, lon := n.lon,
          barrier := getTagL n.tags "barrier" })
    []

/-- The per-way tag context read once before the node-pair loop. -/
structure WayCtx where
  wayId : Nat
  highway : String
  maxspeed : ℚ
  oneway : Bool
  onewayBicycle : Bool
  access : Option String
  motorVehicle : Option String
  vehicle : Option String
  bicycle : Option String
  foot : Option String
deriving DecidableEq

/-- `adjacency.get(k)!.push(e)` with the `if (!adjacency.has(k))
adjacency.set(k, [])` guard: append to the bucket, creating it at the end of
the map when absent. -/
def alPush (adj : List (Nat × List GraphEdge)) (k : Nat) (e : GraphEdge) :
    List (Nat × List GraphEdge) :=
  match adj with
  | [] => [(k, [e])]
  | (k', es) :: rest =>
    if k' = k then (k', es ++ [e]) :: rest else (k', es) :: alPush rest k e

/-- `referencedNodes.add(id)` on the JS `Set` (insertion-ordered, no dups). -/
def addRef (l : List Nat) (id : Nat) : List Nat :=
  if id ∈ l then l else l ++ [id]

/-- One iteration of the consecutive-node-pair loop inside the way loop of
`parseOSM`: skip the pair when either endpoint is missing from the node map,
otherwise mark both endpoints referenced and emit the forward
(`isReverse=false`) and reverse (`isReverse=true`, geometry reversed) edges. -/
def processPair (hav : Hav) (ctx : WayCtx)
    (allNodes : List (Nat × GraphNode))
    (st : List (Nat × List GraphEdge) × List Nat) (fromId toId : Nat) :
    List (Nat × List GraphEdge) × List Nat :=
  match alGet allNodes fromId, alGet allNodes toId with
  | some fromNode, some toNode =>
    let referenced := addRef (addRef st.2 fromId) toId
    let distance := hav fromNode.lat fromNode.lon toNode.lat toNode.lon
    let edge : GraphEdge :=
      { from_ := fromId, to_ := toId, wayId := ctx.wayId,
        highway := ctx.highway, maxspeed := ctx.maxspeed,
        oneway := ctx.oneway, onewayBicycle := ctx.onewayBicycle,
        isReverse := false, distance := distance,
        geometry := [(fromNode.lat, fromNode.lon), (toNode.lat, toNode.lon)],
        access := ctx.access, motorVehicle := ctx.motorVehicle,
        vehicle := ctx.vehicle, bicycle := ctx.bicycle, foot := ctx.foot }
    let reverseEdge : GraphEdge :=
      { from_ := toId, to_ := fromId, wayId := ctx.wayId,
        highway := ctx.highway, maxspeed := ctx.maxspeed,
        oneway := ctx.oneway, onewayBicycle := ctx.onewayBicycle,
        isReverse := true, distance := distance,
        geometry := [(toNode.lat, toNode.lon), (fromNode.lat, fromNode.lon)],
        access := ctx.access, motorVehicle := ctx.motorVehicle,
        vehicle := ctx.vehicle, bicycle := ctx.bicycle, foot := ctx.foot }
    (alPush (alPush st.1 fromId edge) toId reverseEdge, referenced)
  | _, _ => st

/-- The `for (let j = 0; j < nodeIds.length - 1; j++)` loop over consecutive
node-reference pairs. -/
def processPairs (hav : Hav) (ctx : WayCtx)
    (allNodes : List (Nat × GraphNode)) :
    List Nat → (List (Nat × List GraphEdge) × List Nat) →
    List (Nat × List GraphEdge) × List Nat
  | [], st => st
  | [_], st => st
  | a :: b :: rest, st =>
    processPairs hav ctx allNodes (b :: rest)
      (processPair hav ctx allNodes st a b)

/-- One iteration of the way loop of `parseOSM`: skip the way entirely when
the `highway` tag is absent (or empty: the JS guard is `if (!highway)`),
otherwise read the way-level tags once and run the pair loop.  `parseSpeed`
models `parseInt(maxspeedTag, 10) || 0`. -/
def processWay (hav : Hav) (parseSpeed : String → ℚ)
    (allNodes : List (Nat × GraphNode))
    (st : List (Nat × List GraphEdge) × List Nat) (w : OSMWay) :
    List (Nat × List GraphEdge) × List Nat :=
  match getTagL w.tags "highway" with
  | none => st
  | some highway =>
    if highway = "" then st
    else
      let onewayTag := getTagL w.tags "oneway"
      let ctx : WayCtx :=
        { wayId := w.id
          highway := highway
          maxspeed :=
            match getTagL w.tags "maxspeed" with
            | none => 0
            | some s => if s = "" then 0 else parseSpeed s
          oneway := decide (onewayTag = some "yes") ||
            decide (onewayTag = some "1") || decide (onewayTag = some "true")
          onewayBicycle := !decide (getTagL w.tags "oneway:bicycle" = some "no")
          access := getTagL w.tags "access"
          motorVehicle := getTagL w.tags "motor_vehicle"
          vehicle := getTagL w.tags "vehicle"
          bicycle := getTagL w.tags "bicycle"
          foot := getTagL w.tags "foot" }
      processPairs hav ctx allNodes w.nds st

/-- The member scan of the restriction loop: three sequential `if`s updating
`fromWayId` / `viaNodeId` / `toWayId` (initially `0`). -/
def scanMembers (ms : List OSMMember) : Nat × Nat × Nat :=
  ms.foldl
    (fun acc mem =>
      let a := if mem.role = "from" ∧ mem.mtype = "way"
        then (mem.ref, acc.2.1, acc.2.2) else acc
      let b := if mem.role = "via" ∧ mem.mtype = "node"
        then (a.1, mem.ref, a.2.2) else a
      if mem.role = "to" ∧ mem.mtype = "way"
        then (b.1, b.2.1, mem.ref) else b)
    (0, 0, 0)

/-- One iteration of the relation loop of `parseOSM`: keep only
`type=restriction` relations with a non-empty `restriction` tag (the JS guard
`if (!restrictionType)` is falsy for the empty string too) and all three
member roles present (non-zero, the JS guard `if (fromWayId && viaNodeId &&
toWayId)`). -/
def processRelation (rs : List TurnRestriction) (rel : OSMRelation) :
    List TurnRestriction :=
  if getTagL rel.tags "type" = some "restriction" then
    match getTagL rel.tags "restriction" with
    | none => rs
    | some restrictionType =>
      if restrictionType = "" then rs
      else
        let scanned := scanMembers rel.members
        if scanned.1 ≠ 0 ∧ scanned.2.1 ≠ 0 ∧ scanned.2.2 ≠ 0 then
          rs ++ [{ fromWayId := scanned.1, viaNodeId := scanned.2.1,
                   toWayId := scanned.2.2, type := restrictionType }]
        else rs
  else rs

/-- The `for (const id of referencedNodes)` loop of step 4 of `parseOSM`:
look each referenced id up in the full node map and keep it when found. -/
def buildFinalNodesAux (allNodes : List (Nat × GraphNode)) :
    List Nat → List (Nat × GraphNode) → List (Nat × GraphNode)
  | [], m => m
  | id :: rest, m =>
    match alGet allNodes id with
    | some node => buildFinalNodesAux allNodes rest (alSet m id node)
    | none => buildFinalNodesAux allNodes rest m

/-- Step 4 of `parseOSM`: the final node map holds exactly the referenced
ids, looked up in the full node map. -/
def buildFinalNodes (referenced : List Nat)
    (allNodes : List (Nat × GraphNode)) : List (Nat × GraphNode) :=
  buildFinalNodesAux allNodes referenced []

/-- `parseOSM` from `graph.ts` over structured records. -/
def parseOSM (hav : Hav) (parseSpeed : String → ℚ) (doc : OSMDoc) :
    RoutingGraph :=
  let allNodes := buildAllNodes doc.nodes
  let wayResult := doc.ways.foldl (processWay hav parseSpeed allNodes) ([], [])
  let restrictions := doc.relations.foldl processRelation []
  { nodes := buildFinalNodes wayResult.2 allNodes
    adjacency := wayResult.1
    restrictions := restrictions }

/-! ## Termination measure for the search loop (proof artifact)

`phiM` strictly decreases across every iteration of `aStarLoopF` (each
iteration either closes a not-yet-closed adjacency key, or pops without
pushing), and `aStarFuel` strictly dominates it, so the fuel never runs
out. -/

def keysFinset (graph : RoutingGraph) : Finset Nat :=
  (graph.adjacency.map Prod.fst).toFinset

def phiCard (graph : RoutingGraph) (closed : List Nat) : Nat :=
  ((keysFinset graph).filter (fun v => v ∉ closed)).card

def phiM (graph : RoutingGraph) (st : AStarState) : Nat :=
  st.openSet.length + phiCard graph st.closed * (edgeCount graph + 1)

/-- Total number of directed edges held in an adjacency map. -/
def adjSize (adj : List (Nat × List GraphEdge)) : Nat :=
  (adj.map (fun kv => kv.2.length)).sum

/-- `x` appears as the `from` or `to` endpoint of some edge in the adjacency
map. -/
def isEndpoint (adj : List (Nat × List GraphEdge)) (x : Nat) : Prop :=
  ∃ kv ∈ adj, ∃ e ∈ kv.2, e.from_ = x ∨ e.to_ = x

/-- `e` is one of the directed edges held in the adjacency map. -/
def edgeIn (adj : List (Nat × List GraphEdge)) (e : GraphEdge) : Prop :=
  ∃ kv ∈ adj, e ∈ kv.2

/-! ## Concrete instances used by witnesses and counterexamples -/

/-- A one-node graph with no edges. -/
def nodeOne : GraphNode := { id := 1, lat := 0, lon := 0, barrier := none }

def miniGraph : RoutingGraph :=
  { nodes := [(1, nodeOne)], adjacency := [], restrictions := [] }

/-- Degenerate distance function for concrete runs (all distances 0). -/
def hav0 : Hav := fun _ _ _ _ => 0

def nodeW1 : GraphNode := { id := 1, lat := 0, lon := 0, barrier := none }

def nodeW2 : GraphNode := { id := 2, lat := 0, lon := 0, barrier := none }

def allNodesW : List (Nat × GraphNode) := [(1, nodeW1), (2, nodeW2)]

/-- A oneway residential way context for the parser witness. -/
def ctxW : WayCtx :=
  { wayId := 7, highway := "residential", maxspeed := 0, oneway := true,
    onewayBicycle := true, access := none, motorVehicle := none,
    vehicle := none, bicycle := none, foot := none }

/-- A residential edge 1→2 with a two-point geometry, and its reverse. -/
def resEdge12 : GraphEdge :=
  { defaultEdge with
    from_ := 1, to_ := 2, wayId := 10,
    highway := "residential", geometry := [(0, 0), (0, 0)] }

def resEdge21 : GraphEdge :=
  { resEdge12 with from_ := 2, to_ := 1, isReverse := true }

def snapGraphW : RoutingGraph :=
  { nodes := [(1, nodeW1), (2, nodeW2)],
    adjacency := [(1, [resEdge12]), (2, [resEdge21])],
    restrictions := [] }

/-- Replace the barrier tag of the node with id `nid` (used to compare runs
of the search on graphs that differ only in one node's barrier). -/
def setNodeBarrier (graph : RoutingGraph) (nid : Nat) (b : Option String) :
    RoutingGraph :=
  { graph with
    nodes := graph.nodes.map fun kv =>
      (kv.1, if kv.1 = nid then { kv.2 with barrier := b } else kv.2) }

/-- Keep every step except explorations of edges leading back into the given
node (the start node, in the claim). -/
def keepStep (nid : Nat) : AStarStep → Bool
  | .explore _ _ toNodeId => decide (toNodeId ≠ nid)
  | _ => true

def nodeW3 : GraphNode := { id := 3, lat := 0, lon := 0, barrier := none }

def resEdge23 : GraphEdge :=
  { defaultEdge with
    from_ := 2, to_ := 3, wayId := 20,
    highway := "residential", geometry := [(0, 0), (0, 0)] }

def resEdge32 : GraphEdge :=
  { resEdge23 with from_ := 3, to_ := 2, isReverse := true }

/-- Three nodes in a line (1–2–3), all edges bidirectional residential. -/
def lineGraph3 : RoutingGraph :=
  { nodes := [(1, nodeW1), (2, nodeW2), (3, nodeW3)],
    adjacency := [(1, [resEdge12]), (2, [resEdge21, resEdge23]),
      (3, [resEdge32])],
    restrictions := [] }

/-- A motorway edge whose `maxspeed` tag says 120 km/h. -/
def speedEdge120 : GraphEdge :=
  { defaultEdge with highway := "motorway", maxspeed := 120 }

/-- A residential edge whose `maxspeed` tag says 50 km/h. -/
def speedEdge50 : GraphEdge :=
  { defaultEdge with highway := "residential", maxspeed := 50 }

/-! ## Theorems -/

theorem alGet_nil {α : Type} (k : Nat) : alGet ([] : List (Nat × α)) k = none := rfl

theorem alGet_cons {α : Type} (k' : Nat) (v' : α) (rest : List (Nat × α)) (k : Nat) :
    alGet ((k', v') :: rest) k = if k' = k then some v' else alGet rest k := by
  simp only [alGet, List.find?]
  by_cases h : k' = k
  · simp [h]
  · have hb : (k' == k) = false := by simpa using h
    simp [hb, h]

theorem alGet_alSet {α : Type} (m : List (Nat × α)) (k x : Nat) (v : α) :
    alGet (alSet m k v) x = if k = x then some v else alGet m x := by
  induction m with
  | nil =>
    by_cases h : k = x <;> simp [alSet, alGet_nil, alGet_cons, h]
  | cons p rest ih =>
    obtain ⟨k', v'⟩ := p
    by_cases hk : k' = k
    · subst hk
      by_cases hx : k' = x <;> simp [alSet, alGet_cons, hx]
    · by_cases hx : k' = x
      · subst hx
        have hkx : ¬ k = k' := fun h => hk h.symm
        simp [alSet, hk, alGet_cons, hkx]
      · simp [alSet, hk, alGet_cons, hx, ih]

theorem alGet_mem {α : Type} {m : List (Nat × α)} {k : Nat} {v : α}
    (h : alGet m k = some v) : (k, v) ∈ m := by
  unfold alGet at h
  cases hf : m.find? (fun p => p.1 == k) with
  | none => rw [hf] at h; cases h
  | some p =>
    rw [hf] at h
    have hp := List.find?_some hf
    have hmem := List.mem_of_find?_eq_some hf
    obtain ⟨p1, p2⟩ := p
    simp only at h hp
    cases h
    have : p1 = k := by simpa using hp
    subst this
    exact hmem

/-- C1 helper: every entry of `DEFAULT_SPEEDS` is at most 100 km/h. -/
theorem default_speeds_bound (s : String) :
    ((alGetS DEFAULT_SPEEDS s).getD 30 : ℚ) ≤ 100 := by
  have hall : ∀ p ∈ DEFAULT_SPEEDS, p.2 ≤ (100 : ℚ) := by decide
  unfold alGetS
  cases hf : DEFAULT_SPEEDS.find? (fun p => p.1 = s) with
  | none => norm_num
  | some p =>
    have := hall p (List.mem_of_find?_eq_some hf)
    simpa using this

/-- C1 (counterexample): the claim "for every edge and every routing mode the
travel speed never exceeds the mode's maximum speed" is false on the code:
`getTravelSpeed` returns `edge.maxspeed` unclamped for cars, so a motorway
edge tagged `maxspeed=120` is traversed at 120 km/h while
`getMaxSpeed(car) = 100`. -/
theorem C1_speed_bound_counterexample :
    ¬ (∀ (edge : GraphEdge) (mode : RoutingMode),
        getTravelSpeed edge mode ≤ getMaxSpeed mode) := by
  intro h
  have h120 := h speedEdge120 RoutingMode.car
  revert h120
  decide

/-- C1 (amended): the travel speed is bounded by the mode's maximum speed for
bicycle and pedestrian always (both are the fixed mode speed itself), and for
car whenever the edge's `maxspeed` tag does not exceed 100 — in particular
whenever it is unset (0), since every `DEFAULT_SPEEDS` entry and the fallback
30 are at most 100.  An edge tagged `maxspeed > 100` is traversed faster than
`getMaxSpeed(car)`, so the heuristic's admissibility argument fails on such
graphs (see the counterexample). -/
theorem C1_speed_bound_amended (edge : GraphEdge) (mode : RoutingMode)
    (h : mode = RoutingMode.bicycle ∨ mode = RoutingMode.pedestrian ∨
      edge.maxspeed ≤ 100) :
    getTravelSpeed edge mode ≤ getMaxSpeed mode := by
  cases mode with
  | bicycle => simp [getTravelSpeed, getMaxSpeed]
  | pedestrian => simp [getTravelSpeed, getMaxSpeed]
  | car =>
    have hms : edge.maxspeed ≤ 100 := by
      rcases h with h | h | h
      · exact absurd h (by decide)
      · exact absurd h (by decide)
      · exact h
    show (if 0 < edge.maxspeed then edge.maxspeed
      else (alGetS DEFAULT_SPEEDS edge.highway).getD 30) ≤ 100
    split
    · exact hms
    · exact default_speeds_bound edge.highway

theorem C1_speed_bound_witness :
    speedEdge50.maxspeed ≤ 100 ∧
      getTravelSpeed speedEdge50 RoutingMode.car ≤ getMaxSpeed RoutingMode.car :=
  ⟨by decide, C1_speed_bound_amended speedEdge50 RoutingMode.car
    (Or.inr (Or.inr (by decide)))⟩

/-- C2: full characterization of `canTraverseDirection`.  Traversal is
allowed iff the mode is pedestrian (any edge, either direction), or the edge
is not oneway (any mode), or the mode is bicycle and the edge is not being
taken against the oneway flow (`isReverse`) or `onewayBicycle` is false, or
the mode is car and either `ignoreRestrictions` is set or the edge is not
reversed.  Hence: bicycles on a oneway edge are rejected exactly when
`isReverse ∧ onewayBicycle`; cars with `ignoreRestrictions=false` exactly
when `isReverse`; cars with `ignoreRestrictions=true` never. -/
theorem C2_direction_rules (edge : GraphEdge) (fromNodeId : Nat)
    (mode : RoutingMode) (ignoreRestrictions : Bool) :
    canTraverseDirection edge fromNodeId mode ignoreRestrictions = true ↔
      (mode = RoutingMode.pedestrian ∨
       edge.oneway = false ∨
       (mode = RoutingMode.bicycle ∧
         (edge.isReverse = false ∨ edge.onewayBicycle = false)) ∨
       (mode = RoutingMode.car ∧
         (ignoreRestrictions = true ∨ edge.isReverse = false))) := by
  cases mode <;>
    cases hob : edge.oneway <;>
    cases hrev : edge.isReverse <;>
    cases howb : edge.onewayBicycle <;>
    cases ignoreRestrictions <;>
    simp [canTraverseDirection, hob, hrev, howb]

/-- C3: during search, the turn-restriction guard (`restrictionRejects`, the
exact predicate under which the neighbor loop of `aStarRoute` skips a
candidate edge for a turn restriction) holds iff the mode is car,
`ignoreRestrictions` is false, there is a current way (`currentWayId ≠ 0`,
i.e. the current node is not the start), and some recorded restriction
matches the (current way, current node, candidate way) triple exactly and
has a type starting with `no_`.  Consequently bicycle and pedestrian
searches, searches with `ignoreRestrictions=true`, and `only_*` restriction
types (whose type does not start with `no_`) never reject a candidate. -/
theorem C3_restriction_guard (graph : RoutingGraph) (mode : RoutingMode)
    (ignoreRestrictions : Bool) (currentWayId viaNodeId toWayId : Nat) :
    restrictionRejects graph mode ignoreRestrictions currentWayId viaNodeId
        toWayId = true ↔
      (mode = RoutingMode.car ∧ ignoreRestrictions = false ∧ currentWayId ≠ 0 ∧
        ∃ r ∈ graph.restrictions,
          r.fromWayId = currentWayId ∧ r.viaNodeId = viaNodeId ∧
          r.toWayId = toWayId ∧ ∃ rest, "no_".data ++ rest = r.type.data) := by
  simp only [restrictionRejects, isRestricted, Bool.and_eq_true,
    decide_eq_true_eq, Bool.not_eq_true', List.any_eq_true,
    List.isPrefixOf_iff_prefix, decide_eq_false_iff_not]
  constructor
  · rintro ⟨⟨⟨hcar, hway⟩, hig⟩, r, hr, hmatch⟩
    obtain ⟨⟨⟨h1, h2⟩, h3⟩, hpre⟩ := hmatch
    exact ⟨hcar, hig, hway, r, hr, h1, h2, h3, hpre⟩
  · rintro ⟨hcar, hig, hway, r, hr, h1, h2, h3, hpre⟩
    exact ⟨⟨⟨hcar, hway⟩, hig⟩, r, hr, ⟨⟨⟨h1, h2⟩, h3⟩, hpre⟩⟩

/-- C5: if either endpoint id is absent from `graph.nodes`, `aStarRoute`
yields exactly one `no-route` step; if both are present and the start equals
the end, it yields exactly one `done` step with an empty edge path, the
one-element node path `[startNodeId]` and total time 0 — no `explore` steps
in either case. -/
theorem C5_edge_cases (graph : RoutingGraph) (hav : Hav) (mode : RoutingMode)
    (ignoreRestrictions : Bool) (startNodeId endNodeId : Nat) :
    ((alGet graph.nodes startNodeId = none ∨ alGet graph.nodes endNodeId = none) →
      aStarRoute graph hav mode ignoreRestrictions startNodeId endNodeId =
        [AStarStep.noRoute]) ∧
    (startNodeId = endNodeId → (alGet graph.nodes startNodeId).isSome →
      aStarRoute graph hav mode ignoreRestrictions startNodeId endNodeId =
        [AStarStep.done [] [startNodeId] 0]) := by
  constructor
  · rintro (h | h)
    · cases hEnd : alGet graph.nodes endNodeId <;> simp [aStarRoute, h, hEnd]
    · simp [aStarRoute, h]
  · intro heq hs
    subst heq
    obtain ⟨n, hn⟩ := Option.isSome_iff_exists.mp hs
    simp [aStarRoute, hn]

theorem C5_edge_cases_witness :
    aStarRoute miniGraph hav0 RoutingMode.car false 2 1 = [AStarStep.noRoute] ∧
    aStarRoute miniGraph hav0 RoutingMode.car false 1 1 =
      [AStarStep.done [] [1] 0] :=
  ⟨(C5_edge_cases miniGraph hav0 RoutingMode.car false 2 1).1
      (Or.inl (by decide)),
   (C5_edge_cases miniGraph hav0 RoutingMode.car false 1 1).2 rfl (by decide)⟩

theorem listSwap_length (l : List (ℚ × Nat)) (i j : Nat) :
    (listSwap l i j).length = l.length := by
  simp [listSwap]

theorem bubbleUpF_length :
    ∀ (fuel : Nat) (l : List (ℚ × Nat)) (i : Nat),
      (bubbleUpF fuel l i).length = l.length
  | 0, _, _ => rfl
  | fuel + 1, l, i => by
    rw [bubbleUpF]
    split
    · rfl
    · show (if (l.getD ((i - 1) / 2) (0, 0)).1 ≤ (l.getD i (0, 0)).1 then l
        else bubbleUpF fuel (listSwap l i ((i - 1) / 2)) ((i - 1) / 2)).length
          = l.length
      split
      · rfl
      · rw [bubbleUpF_length fuel, listSwap_length]

theorem sinkDownF_length :
    ∀ (fuel : Nat) (l : List (ℚ × Nat)) (i : Nat),
      (sinkDownF fuel l i).length = l.length
  | 0, _, _ => rfl
  | fuel + 1, l, i => by
    show (if heapSmallest l i = i then l
      else sinkDownF fuel (listSwap l i (heapSmallest l i)) (heapSmallest l i)).length
        = l.length
    split
    · rfl
    · rw [sinkDownF_length fuel, listSwap_length]

theorem heapPush_length (l : List (ℚ × Nat)) (key : ℚ) (value : Nat) :
    (heapPush l key value).length = l.length + 1 := by
  simp [heapPush, bubbleUpF_length]

theorem heapPop_length {l : List (ℚ × Nat)} {v : Nat} {rest : List (ℚ × Nat)}
    (h : heapPop l = some (v, rest)) : rest.length + 1 = l.length := by
  match l with
  | [] => cases h
  | [top] =>
    simp only [heapPop] at h
    cases h
    rfl
  | top :: r :: rs =>
    simp only [heapPop] at h
    cases h
    simp [sinkDownF_length, List.length_dropLast]

theorem relaxStep_closed (graph : RoutingGraph) (hav : Hav) (mode : RoutingMode)
    (endNodeId currentId : Nat) (currentG : Option ℚ) (edge : GraphEdge)
    (toNodeId : Nat) (st : AStarState) :
    (relaxStep graph hav mode endNodeId currentId currentG edge toNodeId st).closed
      = st.closed := by
  unfold relaxStep
  split
  · cases currentG <;> rfl
  · rfl

theorem relaxStep_gScore_keys (graph : RoutingGraph) (hav : Hav)
    (mode : RoutingMode) (endNodeId currentId : Nat) (currentG : Option ℚ)
    (edge : GraphEdge) (toNodeId : Nat) (st : AStarState) :
    (relaxStep graph hav mode endNodeId currentId currentG edge toNodeId st).gScore
      = st.gScore ∨
    ∃ tg, (relaxStep graph hav mode endNodeId currentId currentG edge toNodeId
      st).gScore = alSet st.gScore toNodeId tg := by
  unfold relaxStep
  split
  · cases currentG
    · exact Or.inl rfl
    · exact Or.inr ⟨_, rfl⟩
  · exact Or.inl rfl

theorem relaxStep_open_le (graph : RoutingGraph) (hav : Hav) (mode : RoutingMode)
    (endNodeId currentId : Nat) (currentG : Option ℚ) (edge : GraphEdge)
    (toNodeId : Nat) (st : AStarState) :
    (relaxStep graph hav mode endNodeId currentId currentG edge toNodeId st).openSet.length
      ≤ st.openSet.length + 1 := by
  unfold relaxStep
  split
  · cases currentG
    · simp [qAddInf]
    · simp [qAddInf, heapPush_length]
  · omega

theorem expandNode_facts (graph : RoutingGraph) (hav : Hav) (mode : RoutingMode)
    (ig : Bool) (endId cur curWay : Nat) (curG : Option ℚ) :
    ∀ (es : List GraphEdge) (st : AStarState),
      (expandNode graph hav mode ig endId cur curWay curG es st).2.closed = st.closed ∧
      (expandNode graph hav mode ig endId cur curWay curG es st).2.openSet.length ≤
        st.openSet.length + es.length ∧
      ∀ x ∈ (expandNode graph hav mode ig endId cur curWay curG es st).1,
        isTerminal x = false
  | [], st => by simp [expandNode]
  | e :: rest, st => by
    obtain ⟨ha0, hb0, hc0⟩ :=
      expandNode_facts graph hav mode ig endId cur curWay curG rest st
    obtain ⟨ha1, hb1, hc1⟩ :=
      expandNode_facts graph hav mode ig endId cur curWay curG rest
        (relaxStep graph hav mode endId cur curG e (targetOf e cur) st)
    have hrc := relaxStep_closed graph hav mode endId cur curG e (targetOf e cur) st
    have hro := relaxStep_open_le graph hav mode endId cur curG e (targetOf e cur) st
    rw [expandNode]
    split
    · exact ⟨ha0, by simp only [List.length_cons]; omega, hc0⟩
    · split
      · exact ⟨ha0, by simp only [List.length_cons]; omega, hc0⟩
      · split
        · exact ⟨ha0, by simp only [List.length_cons]; omega, hc0⟩
        · split
          · exact ⟨ha0, by simp only [List.length_cons]; omega, hc0⟩
          · refine ⟨ha1.trans hrc, ?_, ?_⟩
            · show (expandNode graph hav mode ig endId cur curWay curG rest
                  (relaxStep graph hav mode endId cur curG e (targetOf e cur)
                    st)).2.openSet.length ≤ st.openSet.length + (e :: rest).length
              simp only [List.length_cons]
              omega
            · intro x hx
              have hx' : x ∈ AStarStep.explore e cur (targetOf e cur) ::
                  (expandNode graph hav mode ig endId cur curWay curG rest
                    (relaxStep graph hav mode endId cur curG e (targetOf e cur)
                      st)).1 := hx
              rcases List.mem_cons.mp hx' with hx2 | hx2
              · subst hx2; rfl
              · exact hc1 x hx2

theorem phiCard_le (graph : RoutingGraph) (cur : Nat) (closed : List Nat) :
    phiCard graph (cur :: closed) ≤ phiCard graph closed := by
  apply Finset.card_le_card
  intro x hx
  rw [Finset.mem_filter] at hx ⊢
  exact ⟨hx.1, fun h => hx.2 (List.mem_cons_of_mem _ h)⟩

theorem phiCard_lt {graph : RoutingGraph} {cur : Nat} {closed : List Nat}
    (h1 : cur ∈ keysFinset graph) (h2 : cur ∉ closed) :
    phiCard graph (cur :: closed) < phiCard graph closed := by
  unfold phiCard
  have hmem : cur ∈ (keysFinset graph).filter (fun v => v ∉ closed) :=
    Finset.mem_filter.mpr ⟨h1, h2⟩
  have hsub : (keysFinset graph).filter (fun v => v ∉ cur :: closed) ⊆
      ((keysFinset graph).filter (fun v => v ∉ closed)).erase cur := by
    intro x hx
    rw [Finset.mem_filter] at hx
    rw [Finset.mem_erase, Finset.mem_filter]
    rw [List.mem_cons] at hx
    push_neg at hx
    exact ⟨hx.2.1, hx.1, hx.2.2⟩
  calc ((keysFinset graph).filter (fun v => v ∉ cur :: closed)).card
      ≤ (((keysFinset graph).filter (fun v => v ∉ closed)).erase cur).card :=
        Finset.card_le_card hsub
    _ < ((keysFinset graph).filter (fun v => v ∉ closed)).card :=
        Finset.card_erase_lt_of_mem hmem

theorem mem_keysFinset_of_alGet {graph : RoutingGraph} {k : Nat}
    {ns : List GraphEdge} (h : alGet graph.adjacency k = some ns) :
    k ∈ keysFinset graph := by
  unfold keysFinset
  rw [List.mem_toFinset]
  exact List.mem_map.mpr ⟨(k, ns), alGet_mem h, rfl⟩

theorem neighbors_le_edgeCount {graph : RoutingGraph} {k : Nat}
    {ns : List GraphEdge} (h : alGet graph.adjacency k = some ns) :
    ns.length ≤ edgeCount graph := by
  unfold edgeCount
  have hm : ns.length ∈ graph.adjacency.map (fun kv => kv.2.length) :=
    List.mem_map.mpr ⟨(k, ns), alGet_mem h, rfl⟩
  exact List.single_le_sum (fun x _ => Nat.zero_le x) _ hm

theorem phiCard_le_len (graph : RoutingGraph) (closed : List Nat) :
    phiCard graph closed ≤ graph.adjacency.length := by
  unfold phiCard
  calc ((keysFinset graph).filter (fun v => v ∉ closed)).card
      ≤ (keysFinset graph).card := Finset.card_filter_le _ _
    _ ≤ (graph.adjacency.map Prod.fst).length := List.toFinset_card_le _
    _ = graph.adjacency.length := List.length_map _ _

/-- C4 loop lemma: with fuel strictly dominating the measure, the loop yields
a (possibly empty) run of non-terminal steps followed by exactly one terminal
step. -/
theorem aStarLoopF_shape (graph : RoutingGraph) (hav : Hav) (mode : RoutingMode)
    (ig : Bool) (startNodeId endNodeId : Nat) :
    ∀ (fuel : Nat) (st : AStarState), phiM graph st < fuel →
      ∃ pre t, aStarLoopF graph hav mode ig startNodeId endNodeId fuel st =
          pre ++ [t] ∧ isTerminal t = true ∧ ∀ x ∈ pre, isTerminal x = false := by
  intro fuel
  induction fuel with
  | zero => intro st h; exact absurd h (by omega)
  | succ n ih =>
    intro st hfuel
    cases hpop : heapPop st.openSet with
    | none =>
      refine ⟨[], AStarStep.noRoute, ?_, rfl, ?_⟩
      · rw [aStarLoopF]
        rw [hpop]
        rfl
      · intro x hx; cases hx
    | some pr =>
      obtain ⟨cur, rest⟩ := pr
      have hrest : rest.length + 1 = st.openSet.length := heapPop_length hpop
      rw [aStarLoopF]
      simp only [hpop]
      by_cases hcl : cur ∈ st.closed
      · simp only [if_pos hcl]
        apply ih
        unfold phiM at hfuel ⊢
        dsimp only
        omega
      · simp only [if_neg hcl]
        by_cases hend : cur = endNodeId
        · simp only [if_pos hend]
          refine ⟨[], _, rfl, rfl, ?_⟩
          intro x hx; cases hx
        · simp only [if_neg hend]
          cases hadj : alGet graph.adjacency cur with
          | none =>
            simp only [hadj]
            apply ih
            unfold phiM at hfuel ⊢
            dsimp only
            have hle := phiCard_le graph cur st.closed
            have hmul := Nat.mul_le_mul_right (edgeCount graph + 1) hle
            omega
          | some ns =>
            simp only [hadj]
            obtain ⟨hca, hob, hsteps⟩ := expandNode_facts graph hav mode ig
              endNodeId cur
              (match alGet st.cameFrom cur with
               | some entry => entry.edge.wayId
               | none => 0)
              (alGet st.gScore cur) ns
              { st with openSet := rest, closed := cur :: st.closed }
            have hkey := mem_keysFinset_of_alGet hadj
            have hlt := phiCard_lt hkey hcl
            have hns := neighbors_le_edgeCount hadj
            have hmeasure : phiM graph
                (expandNode graph hav mode ig endNodeId cur
                  (match alGet st.cameFrom cur with
                   | some entry => entry.edge.wayId
                   | none => 0)
                  (alGet st.gScore cur) ns
                  { st with openSet := rest, closed := cur :: st.closed }).2 < n := by
              unfold phiM
              rw [hca]
              dsimp only at hob ⊢
              have hmul : (phiCard graph (cur :: st.closed) + 1) *
                  (edgeCount graph + 1) ≤
                  phiCard graph st.closed * (edgeCount graph + 1) :=
                Nat.mul_le_mul_right (edgeCount graph + 1) (by omega)
              rw [Nat.succ_mul] at hmul
              unfold phiM at hfuel
              omega
            obtain ⟨pre, t, heq, hterm, hpre⟩ := ih _ hmeasure
            refine ⟨(expandNode graph hav mode ig endNodeId cur
                (match alGet st.cameFrom cur with
                 | some entry => entry.edge.wayId
                 | none => 0)
                (alGet st.gScore cur) ns
                { st with openSet := rest, closed := cur :: st.closed }).1 ++ pre,
              t, ?_, hterm, ?_⟩
            · rw [heq, List.append_assoc]
            · intro x hx
              rcases List.mem_append.mp hx with h | h
              · exact hsteps x h
              · exact hpre x h

/-- C4: on graphs whose edge distances are nonnegative — as `parseOSM`
produces them, every distance being a `haversine` value — the step sequence of
`aStarRoute` consists of non-terminal (`explore`) steps followed by exactly
one terminal step (`done` or `no-route`), which is the last element, so every
`explore` step precedes the unique terminal step, for every choice of
endpoints, mode and options.  The distance hypothesis delimits the domain on
which the fuel-based `walkBack` coincides with the source's unguarded
`while (cameFrom.has(cur))` reconstruction: nonnegative travel times keep the
`cameFrom` predecessor links acyclic, whereas a negative-distance edge can
produce a `cameFrom` cycle on which the source's reconstruction loop diverges
and no terminal step is ever yielded. -/
theorem C4_one_terminal_last (graph : RoutingGraph) (hav : Hav)
    (mode : RoutingMode) (ignoreRestrictions : Bool)
    (startNodeId endNodeId : Nat)
    (_hds : ∀ kv ∈ graph.adjacency, ∀ e ∈ kv.2, 0 ≤ e.distance) :
    ∃ pre t,
      aStarRoute graph hav mode ignoreRestrictions startNodeId endNodeId =
        pre ++ [t] ∧ isTerminal t = true ∧ ∀ x ∈ pre, isTerminal x = false := by
  cases hE : alGet graph.nodes endNodeId with
  | none =>
    refine ⟨[], AStarStep.noRoute, ?_, rfl, ?_⟩
    · cases hS : alGet graph.nodes startNodeId <;> simp [aStarRoute, hE, hS]
    · intro x hx; cases hx
  | some en =>
    cases hS : alGet graph.nodes startNodeId with
    | none =>
      refine ⟨[], AStarStep.noRoute, ?_, rfl, ?_⟩
      · simp [aStarRoute, hE, hS]
      · intro x hx; cases hx
    | some sn =>
      by_cases heq : startNodeId = endNodeId
      · refine ⟨[], AStarStep.done [] [startNodeId] 0, ?_, rfl, ?_⟩
        · simp [aStarRoute, hE, hS, heq]
        · intro x hx; cases hx
      · have hred : aStarRoute graph hav mode ignoreRestrictions startNodeId
            endNodeId =
            aStarLoopF graph hav mode ignoreRestrictions startNodeId endNodeId
              (aStarFuel graph
                { gScore := [(startNodeId, 0)], cameFrom := [],
                  openSet := heapPush []
                    (heuristic graph hav mode endNodeId startNodeId) startNodeId,
                  closed := [] })
              { gScore := [(startNodeId, 0)], cameFrom := [],
                openSet := heapPush []
                  (heuristic graph hav mode endNodeId startNodeId) startNodeId,
                closed := [] } := by
          simp [aStarRoute, hE, hS, heq]
        rw [hred]
        apply aStarLoopF_shape
        unfold phiM aStarFuel
        dsimp only
        rw [heapPush_length]
        have h1 := phiCard_le_len graph ([] : List Nat)
        have hmul : phiCard graph ([] : List Nat) * (edgeCount graph + 1) ≤
            (graph.adjacency.length + 1) * (edgeCount graph + 1) :=
          Nat.mul_le_mul_right (edgeCount graph + 1) (by omega)
        omega

theorem C4_one_terminal_last_witness :
    (∀ kv ∈ lineGraph3.adjacency, ∀ e ∈ kv.2, 0 ≤ e.distance) ∧
    ∃ pre t,
      aStarRoute lineGraph3 hav0 RoutingMode.car false 1 3 =
        pre ++ [t] ∧ isTerminal t = true ∧ ∀ x ∈ pre, isTerminal x = false :=
  ⟨by decide, C4_one_terminal_last lineGraph3 hav0 RoutingMode.car false 1 3
    (by decide)⟩

theorem alPush_size (adj : List (Nat × List GraphEdge)) (k : Nat) (e : GraphEdge) :
    adjSize (alPush adj k e) = adjSize adj + 1 := by
  induction adj with
  | nil => simp [alPush, adjSize]
  | cons p rest ih =>
    obtain ⟨k', es⟩ := p
    by_cases h : k' = k
    · simp [alPush, h, adjSize]
      omega
    · simp only [alPush, if_neg h, adjSize, List.map_cons, List.sum_cons]
      unfold adjSize at ih
      omega

/-- C6: for every way segment between two consecutive node references whose
endpoints both exist in the parsed node map, the pair step of `parseOSM`
(`processPair`) emits exactly two directed edges — appended to the `from`
bucket and the `to` bucket respectively — one with `isReverse=false` in the
native way direction and one with `isReverse=true` in the opposite direction
with reversed geometry, regardless of the way's `oneway` value (the context
`ctx` is universally quantified); both carry the same `wayId`, `highway`,
`maxspeed`, `oneway`, `onewayBicycle`, `distance` and override tags, and the
total edge count grows by exactly 2. -/
theorem C6_pair_emits_two_edges (hav : Hav) (ctx : WayCtx)
    (allNodes : List (Nat × GraphNode))
    (st : List (Nat × List GraphEdge) × List Nat) (fromId toId : Nat)
    (fromNode toNode : GraphNode)
    (h1 : alGet allNodes fromId = some fromNode)
    (h2 : alGet allNodes toId = some toNode) :
    ∃ fwd rev,
      processPair hav ctx allNodes st fromId toId =
        (alPush (alPush st.1 fromId fwd) toId rev,
         addRef (addRef st.2 fromId) toId) ∧
      fwd.isReverse = false ∧ rev.isReverse = true ∧
      fwd.from_ = fromId ∧ fwd.to_ = toId ∧
      rev.from_ = toId ∧ rev.to_ = fromId ∧
      fwd.geometry = [(fromNode.lat, fromNode.lon), (toNode.lat, toNode.lon)] ∧
      rev.geometry = fwd.geometry.reverse ∧
      fwd.wayId = ctx.wayId ∧ rev.wayId = fwd.wayId ∧
      fwd.highway = ctx.highway ∧ rev.highway = fwd.highway ∧
      fwd.maxspeed = ctx.maxspeed ∧ rev.maxspeed = fwd.maxspeed ∧
      fwd.oneway = ctx.oneway ∧ rev.oneway = fwd.oneway ∧
      fwd.onewayBicycle = ctx.onewayBicycle ∧
      rev.onewayBicycle = fwd.onewayBicycle ∧
      rev.distance = fwd.distance ∧
      fwd.access = ctx.access ∧ rev.access = fwd.access ∧
      fwd.motorVehicle = ctx.motorVehicle ∧ rev.motorVehicle = fwd.motorVehicle ∧
      fwd.vehicle = ctx.vehicle ∧ rev.vehicle = fwd.vehicle ∧
      fwd.bicycle = ctx.bicycle ∧ rev.bicycle = fwd.bicycle ∧
      fwd.foot = ctx.foot ∧ rev.foot = fwd.foot ∧
      adjSize (processPair hav ctx allNodes st fromId toId).1 =
        adjSize st.1 + 2 := by
  unfold processPair
  rw [h1, h2]
  dsimp only
  exact ⟨_, _, rfl, rfl, rfl, rfl, rfl, rfl, rfl, rfl, rfl, rfl, rfl, rfl, rfl,
    rfl, rfl, rfl, rfl, rfl, rfl, rfl, rfl, rfl, rfl, rfl, rfl, rfl, rfl, rfl,
    rfl, rfl, by rw [alPush_size, alPush_size]⟩

theorem C6_pair_emits_two_edges_witness :
    adjSize (processPair hav0 ctxW allNodesW ([], []) 1 2).1 = 2 := by
  obtain ⟨fwd, rev, heq, _⟩ :=
    C6_pair_emits_two_edges hav0 ctxW allNodesW ([], []) 1 2 nodeW1 nodeW2
      (by decide) (by decide)
  rw [heq]
  show adjSize (alPush (alPush [] 1 fwd) 2 rev) = 2
  rw [alPush_size, alPush_size]
  rfl

theorem mem_addRef (l : List Nat) (id x : Nat) :
    x ∈ addRef l id ↔ x ∈ l ∨ x = id := by
  unfold addRef
  split
  · rename_i h
    constructor
    · exact Or.inl
    · rintro (hx | rfl)
      · exact hx
      · exact h
  · simp [List.mem_append]

theorem isEndpoint_nil (x : Nat) : ¬ isEndpoint [] x := by
  rintro ⟨kv, hkv, _⟩
  cases hkv

theorem isEndpoint_cons (p : Nat × List GraphEdge)
    (rest : List (Nat × List GraphEdge)) (x : Nat) :
    isEndpoint (p :: rest) x ↔
      (∃ e ∈ p.2, e.from_ = x ∨ e.to_ = x) ∨ isEndpoint rest x := by
  unfold isEndpoint
  constructor
  · rintro ⟨kv, hkv, e, he, hx⟩
    rcases List.mem_cons.mp hkv with rfl | hkv
    · exact Or.inl ⟨e, he, hx⟩
    · exact Or.inr ⟨kv, hkv, e, he, hx⟩
  · rintro (⟨e, he, hx⟩ | ⟨kv, hkv, e, he, hx⟩)
    · exact ⟨p, List.mem_cons_self p rest, e, he, hx⟩
    · exact ⟨kv, List.mem_cons_of_mem _ hkv, e, he, hx⟩

theorem isEndpoint_alPush (adj : List (Nat × List GraphEdge)) (k : Nat)
    (e : GraphEdge) (x : Nat) :
    isEndpoint (alPush adj k e) x ↔
      isEndpoint adj x ∨ e.from_ = x ∨ e.to_ = x := by
  induction adj with
  | nil =>
    show isEndpoint [(k, [e])] x ↔ isEndpoint [] x ∨ e.from_ = x ∨ e.to_ = x
    rw [isEndpoint_cons]
    simp [isEndpoint_nil x]
  | cons p rest ih =>
    obtain ⟨k', es⟩ := p
    by_cases h : k' = k
    · simp only [alPush, if_pos h]
      rw [isEndpoint_cons, isEndpoint_cons]
      simp only [List.mem_append, List.mem_singleton]
      constructor
      · rintro (⟨e', he' | rfl, hx⟩ | hr)
        · exact Or.inl (Or.inl ⟨e', he', hx⟩)
        · exact Or.inr hx
        · exact Or.inl (Or.inr hr)
      · rintro ((⟨e', he', hx⟩ | hr) | hx)
        · exact Or.inl ⟨e', Or.inl he', hx⟩
        · exact Or.inr hr
        · exact Or.inl ⟨e, Or.inr rfl, hx⟩
    · simp only [alPush, if_neg h]
      rw [isEndpoint_cons, isEndpoint_cons, ih]
      constructor
      · rintro (hes | hr | hx)
        · exact Or.inl (Or.inl hes)
        · exact Or.inl (Or.inr hr)
        · exact Or.inr hx
      · rintro ((hes | hr) | hx)
        · exact Or.inl hes
        · exact Or.inr (Or.inl hr)
        · exact Or.inr (Or.inr hx)

theorem processPair_inv (hav : Hav) (ctx : WayCtx)
    (allNodes : List (Nat × GraphNode)) (a b : Nat)
    {st : List (Nat × List GraphEdge) × List Nat}
    (h1 : ∀ x, x ∈ st.2 ↔ isEndpoint st.1 x)
    (h2 : ∀ x ∈ st.2, (alGet allNodes x).isSome = true) :
    (∀ x, x ∈ (processPair hav ctx allNodes st a b).2 ↔
       isEndpoint (processPair hav ctx allNodes st a b).1 x) ∧
    (∀ x ∈ (processPair hav ctx allNodes st a b).2,
       (alGet allNodes x).isSome = true) := by
  unfold processPair
  cases hfa : alGet allNodes a with
  | none => exact ⟨h1, h2⟩
  | some fromNode =>
    cases hfb : alGet allNodes b with
    | none => exact ⟨h1, h2⟩
    | some toNode =>
      simp only
      constructor
      · intro x
        rw [mem_addRef, mem_addRef, isEndpoint_alPush, isEndpoint_alPush, ← h1 x]
        dsimp only
        constructor
        · rintro ((hx | rfl) | rfl)
          · exact Or.inl (Or.inl hx)
          · exact Or.inl (Or.inr (Or.inl rfl))
          · exact Or.inl (Or.inr (Or.inr rfl))
        · rintro ((hx | rfl | rfl) | rfl | rfl)
          · exact Or.inl (Or.inl hx)
          · exact Or.inl (Or.inr rfl)
          · exact Or.inr rfl
          · exact Or.inr rfl
          · exact Or.inl (Or.inr rfl)
      · intro x hx
        rw [mem_addRef, mem_addRef] at hx
        rcases hx with (hx | rfl) | rfl
        · exact h2 x hx
        · rw [hfa]; rfl
        · rw [hfb]; rfl

theorem processPairs_inv (hav : Hav) (ctx : WayCtx)
    (allNodes : List (Nat × GraphNode)) :
    ∀ (nds : List Nat) (st : List (Nat × List GraphEdge) × List Nat),
      (∀ x, x ∈ st.2 ↔ isEndpoint st.1 x) →
      (∀ x ∈ st.2, (alGet allNodes x).isSome = true) →
      (∀ x, x ∈ (processPairs hav ctx allNodes nds st).2 ↔
         isEndpoint (processPairs hav ctx allNodes nds st).1 x) ∧
      (∀ x ∈ (processPairs hav ctx allNodes nds st).2,
         (alGet allNodes x).isSome = true)
  | [], _, h1, h2 => ⟨h1, h2⟩
  | [_], _, h1, h2 => ⟨h1, h2⟩
  | a :: b :: rest, st, h1, h2 => by
    obtain ⟨g1, g2⟩ := processPair_inv hav ctx allNodes a b h1 h2
    exact processPairs_inv hav ctx allNodes (b :: rest) _ g1 g2

theorem processWay_inv (hav : Hav) (parseSpeed : String → ℚ)
    (allNodes : List (Nat × GraphNode)) (w : OSMWay)
    {st : List (Nat × List GraphEdge) × List Nat}
    (h1 : ∀ x, x ∈ st.2 ↔ isEndpoint st.1 x)
    (h2 : ∀ x ∈ st.2, (alGet allNodes x).isSome = true) :
    (∀ x, x ∈ (processWay hav parseSpeed allNodes st w).2 ↔
       isEndpoint (processWay hav parseSpeed allNodes st w).1 x) ∧
    (∀ x ∈ (processWay hav parseSpeed allNodes st w).2,
       (alGet allNodes x).isSome = true) := by
  unfold processWay
  cases hw : getTagL w.tags "highway" with
  | none => exact ⟨h1, h2⟩
  | some hwv =>
    by_cases hempty : hwv = ""
    · simp only [if_pos hempty]
      exact ⟨h1, h2⟩
    · simp only [if_neg hempty]
      exact processPairs_inv hav _ allNodes w.nds st h1 h2

theorem foldl_processWay_inv (hav : Hav) (parseSpeed : String → ℚ)
    (allNodes : List (Nat × GraphNode)) :
    ∀ (ways : List OSMWay) (st : List (Nat × List GraphEdge) × List Nat),
      (∀ x, x ∈ st.2 ↔ isEndpoint st.1 x) →
      (∀ x ∈ st.2, (alGet allNodes x).isSome = true) →
      (∀ x, x ∈ (ways.foldl (processWay hav parseSpeed allNodes) st).2 ↔
         isEndpoint (ways.foldl (processWay hav parseSpeed allNodes) st).1 x) ∧
      (∀ x ∈ (ways.foldl (processWay hav parseSpeed allNodes) st).2,
         (alGet allNodes x).isSome = true)
  | [], _, h1, h2 => ⟨h1, h2⟩
  | w :: ws, st, h1, h2 => by
    obtain ⟨g1, g2⟩ := processWay_inv hav parseSpeed allNodes w h1 h2
    exact foldl_processWay_inv hav parseSpeed allNodes ws _ g1 g2

theorem buildFinalNodesAux_isSome (allNodes : List (Nat × GraphNode)) :
    ∀ (refs : List Nat) (m0 : List (Nat × GraphNode)),
      (∀ x ∈ refs, (alGet allNodes x).isSome = true) → ∀ x,
      ((alGet (buildFinalNodesAux allNodes refs m0) x).isSome = true ↔
        ((alGet m0 x).isSome = true ∨ x ∈ refs))
  | [], m0, _, x => by simp [buildFinalNodesAux]
  | id :: rest, m0, h, x => by
    have hid := h id (List.mem_cons_self id rest)
    obtain ⟨nd, hnd⟩ := Option.isSome_iff_exists.mp hid
    rw [buildFinalNodesAux]
    rw [hnd]
    rw [buildFinalNodesAux_isSome allNodes rest (alSet m0 id nd)
      (fun y hy => h y (List.mem_cons_of_mem _ hy)) x]
    rw [alGet_alSet]
    by_cases hx : id = x
    · subst hx
      simp [List.mem_cons]
    · have hx2 : ¬ x = id := fun hh => hx hh.symm
      simp only [if_neg hx, List.mem_cons]
      tauto

/-- C7: in every `RoutingGraph` returned by `parseOSM`, the key set of the
final `nodes` map is exactly the set of node ids appearing as the `from` or
`to` endpoint of some edge in the adjacency map: unreferenced parsed nodes
are pruned, and every edge endpoint has a `nodes` entry. -/
theorem C7_nodes_are_exactly_endpoints (hav : Hav) (parseSpeed : String → ℚ)
    (doc : OSMDoc) (x : Nat) :
    (alGet (parseOSM hav parseSpeed doc).nodes x).isSome = true ↔
      isEndpoint (parseOSM hav parseSpeed doc).adjacency x := by
  have hinit1 : ∀ y : Nat, y ∈ (([], []) :
      List (Nat × List GraphEdge) × List Nat).2 ↔
      isEndpoint (([], []) : List (Nat × List GraphEdge) × List Nat).1 y := by
    intro y
    constructor
    · intro hy; cases hy
    · intro hy; exact absurd hy (isEndpoint_nil y)
  have hinit2 : ∀ y ∈ (([], []) : List (Nat × List GraphEdge) × List Nat).2,
      (alGet (buildAllNodes doc.nodes) y).isSome = true := by
    intro y hy; cases hy
  obtain ⟨g1, g2⟩ := foldl_processWay_inv hav parseSpeed
    (buildAllNodes doc.nodes) doc.ways ([], []) hinit1 hinit2
  show (alGet (buildFinalNodes
      (doc.ways.foldl (processWay hav parseSpeed (buildAllNodes doc.nodes))
        ([], [])).2 (buildAllNodes doc.nodes)) x).isSome = true ↔ _
  unfold buildFinalNodes
  rw [buildFinalNodesAux_isSome (buildAllNodes doc.nodes) _ [] g2 x]
  rw [alGet_nil]
  simp only [Option.isSome_none, Bool.false_eq_true, false_or]
  exact g1 x

theorem segPairs_ne_nil {l : List (ℚ × ℚ)} (h : 2 ≤ l.length) :
    segPairs l ≠ [] := by
  match l with
  | [] => simp at h
  | [_] => simp at h
  | a :: b :: rest => simp [segPairs]

theorem snapSegStep_seen (hav : Hav) (lat lon : ℚ) (e : GraphEdge)
    (a b : ℚ × ℚ) (st : SnapState) :
    (snapSegStep hav lat lon e a b st).seen = st.seen := by
  simp only [snapSegStep]
  split <;> rfl

theorem snapSegStep_bestEdge_cases (hav : Hav) (lat lon : ℚ) (e : GraphEdge)
    (a b : ℚ × ℚ) (st : SnapState) :
    (snapSegStep hav lat lon e a b st).bestEdge = st.bestEdge ∨
      (snapSegStep hav lat lon e a b st).bestEdge = some e := by
  simp only [snapSegStep]
  split
  · exact Or.inr rfl
  · exact Or.inl rfl

theorem snapSegStep_distEdge (hav : Hav) (lat lon : ℚ) (e : GraphEdge)
    (a b : ℚ × ℚ) (st : SnapState)
    (h : st.bestDist.isSome = st.bestEdge.isSome) :
    (snapSegStep hav lat lon e a b st).bestDist.isSome =
      (snapSegStep hav lat lon e a b st).bestEdge.isSome := by
  simp only [snapSegStep]
  split
  · rfl
  · exact h

theorem snapSegStep_mono (hav : Hav) (lat lon : ℚ) (e : GraphEdge)
    (a b : ℚ × ℚ) (st : SnapState) (h : st.bestEdge.isSome = true) :
    (snapSegStep hav lat lon e a b st).bestEdge.isSome = true := by
  simp only [snapSegStep]
  split
  · rfl
  · exact h

theorem snapSegStep_none (hav : Hav) (lat lon : ℚ) (e : GraphEdge)
    (a b : ℚ × ℚ) (st : SnapState) (h : st.bestDist = none) :
    (snapSegStep hav lat lon e a b st).bestEdge = some e := by
  simp [snapSegStep, h, qLtInf]

theorem snapSegs_facts (hav : Hav) (lat lon : ℚ) (e : GraphEdge) :
    ∀ (pairs : List ((ℚ × ℚ) × (ℚ × ℚ))) (st : SnapState),
      ((snapSegs hav lat lon e pairs st).seen = st.seen) ∧
      ((snapSegs hav lat lon e pairs st).bestEdge = st.bestEdge ∨
        (snapSegs hav lat lon e pairs st).bestEdge = some e) ∧
      (st.bestDist.isSome = st.bestEdge.isSome →
        (snapSegs hav lat lon e pairs st).bestDist.isSome =
          (snapSegs hav lat lon e pairs st).bestEdge.isSome) ∧
      (st.bestEdge.isSome = true →
        (snapSegs hav lat lon e pairs st).bestEdge.isSome = true) ∧
      (st.bestDist = none → pairs ≠ [] →
        (snapSegs hav lat lon e pairs st).bestEdge.isSome = true)
  | [], st =>
    ⟨rfl, Or.inl rfl, fun h => h, fun h => h, fun _ hne => absurd rfl hne⟩
  | (a, b) :: rest, st => by
    obtain ⟨f1, f2, f3, f4, f5⟩ :=
      snapSegs_facts hav lat lon e rest (snapSegStep hav lat lon e a b st)
    rw [snapSegs]
    refine ⟨?_, ?_, ?_, ?_, ?_⟩
    · rw [f1, snapSegStep_seen]
    · rcases f2 with h | h
      · rcases snapSegStep_bestEdge_cases hav lat lon e a b st with h2 | h2
        · exact Or.inl (h.trans h2)
        · exact Or.inr (h.trans h2)
      · exact Or.inr h
    · intro h
      exact f3 (snapSegStep_distEdge hav lat lon e a b st h)
    · intro h
      exact f4 (snapSegStep_mono hav lat lon e a b st h)
    · intro h _
      refine f4 ?_
      rw [snapSegStep_none hav lat lon e a b st h]
      rfl

theorem snapEdges_inv (hav : Hav) (lat lon : ℚ) (mode : RoutingMode)
    (adj : List (Nat × List GraphEdge))
    (hgeo : ∀ e, edgeIn adj e → 2 ≤ e.geometry.length)
    (hkey : ∀ e1 e2, edgeIn adj e1 → edgeIn adj e2 → edgeKey e1 = edgeKey e2 →
      isEdgeAccessible e1 mode = isEdgeAccessible e2 mode) :
    ∀ (es : List GraphEdge) (st : SnapState),
      (∀ e ∈ es, edgeIn adj e) →
      st.bestDist.isSome = st.bestEdge.isSome →
      (∀ e, st.bestEdge = some e →
        edgeIn adj e ∧ isEdgeAccessible e mode = true) →
      (st.bestEdge = none → ∀ k ∈ st.seen, ∀ e2, edgeIn adj e2 →
        edgeKey e2 = k → isEdgeAccessible e2 mode = false) →
      ((snapEdges hav lat lon mode es st).bestDist.isSome =
        (snapEdges hav lat lon mode es st).bestEdge.isSome) ∧
      (∀ e, (snapEdges hav lat lon mode es st).bestEdge = some e →
        edgeIn adj e ∧ isEdgeAccessible e mode = true) ∧
      ((snapEdges hav lat lon mode es st).bestEdge = none →
        ∀ k ∈ (snapEdges hav lat lon mode es st).seen, ∀ e2, edgeIn adj e2 →
          edgeKey e2 = k → isEdgeAccessible e2 mode = false) ∧
      (∀ e ∈ es, edgeKey e ∈ (snapEdges hav lat lon mode es st).seen) ∧
      (∀ k ∈ st.seen, k ∈ (snapEdges hav lat lon mode es st).seen)
  | [], st, _, ha, hb, hc =>
    ⟨ha, hb, hc, (by intro x hx; cases hx), fun k hk => hk⟩
  | e :: rest, st, hes, ha, hb, hc => by
    rw [snapEdges]
    by_cases hseen : edgeKey e ∈ st.seen
    · rw [if_pos hseen]
      obtain ⟨g1, g2, g3, g4, g5⟩ := snapEdges_inv hav lat lon mode adj hgeo
        hkey rest st (fun x hx => hes x (List.mem_cons_of_mem _ hx)) ha hb hc
      refine ⟨g1, g2, g3, ?_, g5⟩
      intro x hx
      rcases List.mem_cons.mp hx with rfl | hx
      · exact g5 _ hseen
      · exact g4 x hx
    · rw [if_neg hseen]
      have hein : edgeIn adj e := hes e (List.mem_cons_self e rest)
      by_cases hacc : isEdgeAccessible e mode = true
      · rw [if_pos hacc]
        obtain ⟨f1, f2, f3, f4, f5⟩ := snapSegs_facts hav lat lon e
          (segPairs e.geometry) { st with seen := st.seen ++ [edgeKey e] }
        have hsome2 : (snapSegs hav lat lon e (segPairs e.geometry)
            { st with seen := st.seen ++ [edgeKey e] }).bestEdge.isSome = true := by
          by_cases hbd : st.bestDist = none
          · exact f5 hbd (segPairs_ne_nil (hgeo e hein))
          · refine f4 ?_
            show st.bestEdge.isSome = true
            rw [← ha]
            exact Option.isSome_iff_ne_none.mpr hbd
        obtain ⟨g1, g2, g3, g4, g5⟩ := snapEdges_inv hav lat lon mode adj hgeo
          hkey rest (snapSegs hav lat lon e (segPairs e.geometry)
            { st with seen := st.seen ++ [edgeKey e] })
          (fun x hx => hes x (List.mem_cons_of_mem _ hx))
          (f3 ha)
          (by
            intro x hx
            rcases f2 with h2 | h2
            · rw [h2] at hx
              exact hb x hx
            · rw [h2] at hx
              cases hx
              exact ⟨hein, hacc⟩)
          (by
            intro hnone
            rw [hnone] at hsome2
            cases hsome2)
        refine ⟨g1, g2, g3, ?_, ?_⟩
        · intro x hx
          rcases List.mem_cons.mp hx with rfl | hx
          · refine g5 _ ?_
            rw [f1]
            exact List.mem_append_right _ (List.mem_singleton.mpr rfl)
          · exact g4 x hx
        · intro k hk
          refine g5 k ?_
          rw [f1]
          exact List.mem_append_left _ hk
      · rw [if_neg hacc]
        have haccf : isEdgeAccessible e mode = false :=
          Bool.not_eq_true _ ▸ Bool.of_not_eq_true hacc
        obtain ⟨g1, g2, g3, g4, g5⟩ := snapEdges_inv hav lat lon mode adj hgeo
          hkey rest { st with seen := st.seen ++ [edgeKey e] }
          (fun x hx => hes x (List.mem_cons_of_mem _ hx))
          ha hb
          (by
            intro hnone k hk e2 hin2 hk2
            rcases List.mem_append.mp hk with hk | hk
            · exact hc hnone k hk e2 hin2 hk2
            · have hke : k = edgeKey e := List.mem_singleton.mp hk
              subst hke
              rw [hkey e2 e hin2 hein hk2]
              exact haccf)
        refine ⟨g1, g2, g3, ?_, ?_⟩
        · intro x hx
          rcases List.mem_cons.mp hx with rfl | hx
          · exact g5 _ (List.mem_append_right _ (List.mem_singleton.mpr rfl))
          · exact g4 x hx
        · intro k hk
          exact g5 k (List.mem_append_left _ hk)

theorem snapEdges_seen_mono (hav : Hav) (lat lon : ℚ) (mode : RoutingMode) :
    ∀ (es : List GraphEdge) (st : SnapState) (k : Nat × Nat × Nat),
      k ∈ st.seen → k ∈ (snapEdges hav lat lon mode es st).seen
  | [], _, _, hk => hk
  | e :: rest, st, k, hk => by
    rw [snapEdges]
    by_cases hseen : edgeKey e ∈ st.seen
    · rw [if_pos hseen]
      exact snapEdges_seen_mono hav lat lon mode rest st k hk
    · rw [if_neg hseen]
      by_cases hacc : isEdgeAccessible e mode = true
      · rw [if_pos hacc]
        refine snapEdges_seen_mono hav lat lon mode rest _ k ?_
        rw [(snapSegs_facts hav lat lon e (segPairs e.geometry)
          { st with seen := st.seen ++ [edgeKey e] }).1]
        exact List.mem_append_left _ hk
      · rw [if_neg hacc]
        exact snapEdges_seen_mono hav lat lon mode rest _ k
          (List.mem_append_left _ hk)

theorem snapAdj_seen_mono (hav : Hav) (lat lon : ℚ) (mode : RoutingMode) :
    ∀ (rem : List (Nat × List GraphEdge)) (st : SnapState)
      (k : Nat × Nat × Nat), k ∈ st.seen →
      k ∈ (snapAdj hav lat lon mode rem st).seen
  | [], _, _, hk => hk
  | (k0, es) :: rem, st, k, hk => by
    rw [snapAdj]
    refine snapAdj_seen_mono hav lat lon mode rem _ k ?_
    exact snapEdges_seen_mono hav lat lon mode es st k hk

theorem snapAdj_inv (hav : Hav) (lat lon : ℚ) (mode : RoutingMode)
    (adj : List (Nat × List GraphEdge))
    (hgeo : ∀ e, edgeIn adj e → 2 ≤ e.geometry.length)
    (hkey : ∀ e1 e2, edgeIn adj e1 → edgeIn adj e2 → edgeKey e1 = edgeKey e2 →
      isEdgeAccessible e1 mode = isEdgeAccessible e2 mode) :
    ∀ (rem : List (Nat × List GraphEdge)) (st : SnapState),
      (∀ kv ∈ rem, kv ∈ adj) →
      st.bestDist.isSome = st.bestEdge.isSome →
      (∀ e, st.bestEdge = some e →
        edgeIn adj e ∧ isEdgeAccessible e mode = true) →
      (st.bestEdge = none → ∀ k ∈ st.seen, ∀ e2, edgeIn adj e2 →
        edgeKey e2 = k → isEdgeAccessible e2 mode = false) →
      ((snapAdj hav lat lon mode rem st).bestDist.isSome =
        (snapAdj hav lat lon mode rem st).bestEdge.isSome) ∧
      (∀ e, (snapAdj hav lat lon mode rem st).bestEdge = some e →
        edgeIn adj e ∧ isEdgeAccessible e mode = true) ∧
      ((snapAdj hav lat lon mode rem st).bestEdge = none →
        ∀ k ∈ (snapAdj hav lat lon mode rem st).seen, ∀ e2, edgeIn adj e2 →
          edgeKey e2 = k → isEdgeAccessible e2 mode = false) ∧
      (∀ kv ∈ rem, ∀ e ∈ kv.2,
        edgeKey e ∈ (snapAdj hav lat lon mode rem st).seen)
  | [], st, _, ha, hb, hc => ⟨ha, hb, hc, (by intro kv hkv; cases hkv)⟩
  | (k0, es) :: rem, st, hsub, ha, hb, hc => by
    rw [snapAdj]
    have hes : ∀ e ∈ es, edgeIn adj e := fun e he =>
      ⟨(k0, es), hsub _ (List.mem_cons_self _ rem), he⟩
    obtain ⟨e1, e2, e3, e4, e5⟩ := snapEdges_inv hav lat lon mode adj hgeo hkey
      es st hes ha hb hc
    obtain ⟨g1, g2, g3, g4⟩ := snapAdj_inv hav lat lon mode adj hgeo hkey rem
      (snapEdges hav lat lon mode es st)
      (fun kv hkv => hsub kv (List.mem_cons_of_mem _ hkv)) e1 e2 e3
    refine ⟨g1, g2, g3, ?_⟩
    rintro kv hkv e he
    rcases List.mem_cons.mp hkv with rfl | hkv
    · exact snapAdj_seen_mono hav lat lon mode rem _ _ (e4 e he)
    · exact g4 kv hkv e he

/-- C8: `snapToRoad` returns `null` iff the graph holds no edge accessible to
the queried mode, and any returned `SnapResult` carries an accessible edge —
so a mode-inaccessible edge is never snapped to, however close.  The two
hypotheses are the data-model well-formedness the matcher relies on: every
edge's `geometry` traces the edge (at least its two endpoints), and the
dedup key `wayId-from-to` identifies a physical way segment (so the two
directional copies it conflates agree on accessibility, which holds for
`parseOSM` output since both copies of a segment carry the same way tags). -/
theorem C8_snap_null_iff_inaccessible (hav : Hav) (lat lon : ℚ)
    (graph : RoutingGraph) (mode : RoutingMode)
    (hgeo : ∀ kv ∈ graph.adjacency, ∀ e ∈ kv.2, 2 ≤ e.geometry.length)
    (hkey : ∀ kv1 ∈ graph.adjacency, ∀ kv2 ∈ graph.adjacency,
      ∀ e1 ∈ kv1.2, ∀ e2 ∈ kv2.2, edgeKey e1 = edgeKey e2 →
      isEdgeAccessible e1 mode = isEdgeAccessible e2 mode) :
    (snapToRoad hav lat lon graph mode = none ↔
      ¬ ∃ e, edgeIn graph.adjacency e ∧ isEdgeAccessible e mode = true) ∧
    (∀ r, snapToRoad hav lat lon graph mode = some r →
      isEdgeAccessible r.edge mode = true) := by
  have hgeo2 : ∀ e, edgeIn graph.adjacency e → 2 ≤ e.geometry.length := by
    rintro e ⟨kv, hkv, he⟩
    exact hgeo kv hkv e he
  have hkey2 : ∀ e1 e2, edgeIn graph.adjacency e1 → edgeIn graph.adjacency e2 →
      edgeKey e1 = edgeKey e2 →
      isEdgeAccessible e1 mode = isEdgeAccessible e2 mode := by
    rintro e1 e2 ⟨kv1, hkv1, he1⟩ ⟨kv2, hkv2, he2⟩ hk
    exact hkey kv1 hkv1 kv2 hkv2 e1 he1 e2 he2 hk
  obtain ⟨fa, fb, fc, fcov⟩ := snapAdj_inv hav lat lon mode graph.adjacency
    hgeo2 hkey2 graph.adjacency
    { bestDist := none, bestLat := 0, bestLon := 0, bestEdge := none, seen := [] }
    (fun kv h => h) rfl
    (by rintro e h; cases h)
    (by rintro _ k hk; cases hk)
  unfold snapToRoad
  cases hbe : (snapAdj hav lat lon mode graph.adjacency
      { bestDist := none, bestLat := 0, bestLon := 0, bestEdge := none,
        seen := [] }).bestEdge with
  | none =>
    simp only [hbe]
    refine ⟨⟨fun _ => ?_, fun _ => by trivial⟩, ?_⟩
    · rintro ⟨e, hin, hacc⟩
      obtain ⟨kv, hkv, he⟩ := hin
      have hfalse := fc hbe (edgeKey e) (fcov kv hkv e he) e ⟨kv, hkv, he⟩ rfl
      rw [hacc] at hfalse
      cases hfalse
    · rintro r hr
      cases hr
  | some bestE =>
    simp only [hbe]
    refine ⟨⟨?_, ?_⟩, ?_⟩
    · intro h
      cases h
    · intro hno
      exact absurd ⟨bestE, (fb bestE hbe).1, (fb bestE hbe).2⟩ hno
    · intro r hr
      cases hr
      exact (fb bestE hbe).2

theorem C8_snap_null_iff_inaccessible_witness :
    ¬ (snapToRoad hav0 0 0 snapGraphW RoutingMode.car = none) := by
  intro hnone
  have h := (C8_snap_null_iff_inaccessible hav0 0 0 snapGraphW RoutingMode.car
    (by decide) (by decide)).1.mp hnone
  exact h ⟨resEdge12, ⟨(1, [resEdge12]), by decide, by decide⟩, by decide⟩

theorem listSet_append_ge {α : Type} (l1 l2 : List α) (n : Nat) (v : α)
    (h : l1.length ≤ n) :
    (l1 ++ l2).set n v = l1 ++ l2.set (n - l1.length) v := by
  induction l1 generalizing n with
  | nil => simp
  | cons a t ih =>
    cases n with
    | zero => simp at h
    | succ m =>
      have h2 : t.length ≤ m := by simpa using h
      simp only [List.cons_append, List.set_cons_succ, List.length_cons,
        Nat.succ_sub_succ]
      rw [ih m h2]

theorem exists_append_of_set {α : Type} (l1 l2 : List α) (n : Nat) (v : α)
    (h : l1.length ≤ n) : ∃ l2b, (l1 ++ l2).set n v = l1 ++ l2b :=
  ⟨l2.set (n - l1.length) v, listSet_append_ge l1 l2 n v h⟩

theorem exists_append_of_set2 {α : Type} (l1 l2 : List α) (n1 n2 : Nat)
    (v1 v2 : α) (h1 : l1.length ≤ n1) (h2 : l1.length ≤ n2) :
    ∃ l2b, ((l1 ++ l2).set n1 v1).set n2 v2 = l1 ++ l2b := by
  obtain ⟨b1, hb1⟩ := exists_append_of_set l1 l2 n1 v1 h1
  rw [hb1]
  exact exists_append_of_set l1 b1 n2 v2 h2

/-- C9: `trimRouteToSnapPoints` never mutates its input edges: in the store
model, the final store extends the input store — every pre-existing edge
object (each original address, including every geometry list) is unchanged;
the returned route consists of fresh copies.  This holds because the only
two writes in the function target the copies allocated at addresses at or
beyond `store.length`. -/
theorem C9_trim_never_mutates_input (hav : Hav) (store : List GraphEdge)
    (path : List Nat) (originSnap destinationSnap : SnapResult) :
    ∃ extra,
      (trimRouteToSnapPoints hav store path originSnap destinationSnap).1 =
        store ++ extra := by
  unfold trimRouteToSnapPoints
  by_cases hp : path = []
  · rw [if_pos hp]
    exact ⟨[], (List.append_nil store).symm⟩
  · rw [if_neg hp]
    by_cases hl : path.length = 1
    · simp only [if_pos hl]
      exact exists_append_of_set store
        (path.map fun a => store.getD a defaultEdge) store.length _
        (le_refl _)
    · simp only [if_neg hl]
      exact exists_append_of_set2 store
        (path.map fun a => store.getD a defaultEdge) store.length
        (store.length + (path.length - 1)) _ _ (le_refl _)
        (Nat.le_add_right _ _)

theorem alGet_mapVal {α : Type} (g : Nat → α → α) :
    ∀ (m : List (Nat × α)) (x : Nat),
      alGet (m.map fun kv => (kv.1, g kv.1 kv.2)) x = (alGet m x).map (g x)
  | [], _ => rfl
  | (k, v) :: rest, x => by
    rw [List.map_cons]
    rw [alGet_cons, alGet_cons]
    by_cases h : k = x
    · subst h
      simp
    · simp only [if_neg h]
      exact alGet_mapVal g rest x

theorem setNodeBarrier_nodes (graph : RoutingGraph) (nid : Nat)
    (b : Option String) (x : Nat) :
    alGet (setNodeBarrier graph nid b).nodes x =
      (alGet graph.nodes x).map
        (fun n => if x = nid then { n with barrier := b } else n) := by
  exact alGet_mapVal (fun k n => if k = nid then { n with barrier := b } else n)
    graph.nodes x

theorem setNodeBarrier_nodes_ne (graph : RoutingGraph) (nid : Nat)
    (b : Option String) (x : Nat) (h : ¬ x = nid) :
    alGet (setNodeBarrier graph nid b).nodes x = alGet graph.nodes x := by
  rw [setNodeBarrier_nodes]
  cases alGet graph.nodes x with
  | none => rfl
  | some n => simp [h]

theorem setNodeBarrier_isSome (graph : RoutingGraph) (nid : Nat)
    (b : Option String) (x : Nat) :
    (alGet (setNodeBarrier graph nid b).nodes x).isSome =
      (alGet graph.nodes x).isSome := by
  rw [setNodeBarrier_nodes]
  cases alGet graph.nodes x <;> rfl

theorem heuristic_setBarrier (graph : RoutingGraph) (nid : Nat)
    (b : Option String) (hav : Hav) (mode : RoutingMode)
    (endNodeId nodeId : Nat) :
    heuristic (setNodeBarrier graph nid b) hav mode endNodeId nodeId =
      heuristic graph hav mode endNodeId nodeId := by
  unfold heuristic
  rw [setNodeBarrier_nodes, setNodeBarrier_nodes]
  cases alGet graph.nodes endNodeId with
  | none =>
    cases alGet graph.nodes nodeId with
    | none => rfl
    | some n =>
      dsimp only [Option.map]
      split <;> rfl
  | some en =>
    cases alGet graph.nodes nodeId with
    | none =>
      dsimp only [Option.map]
      split <;> rfl
    | some n =>
      dsimp only [Option.map]
      split <;> split <;> rfl

theorem barrierRejects_setBarrier_ne (graph : RoutingGraph) (nid : Nat)
    (b : Option String) (mode : RoutingMode) (ig : Bool) (toNodeId : Nat)
    (h : ¬ toNodeId = nid) :
    barrierRejects (setNodeBarrier graph nid b) mode ig toNodeId =
      barrierRejects graph mode ig toNodeId := by
  unfold barrierRejects
  rw [setNodeBarrier_nodes_ne graph nid b toNodeId h]

theorem mem_alSet {α : Type} :
    ∀ (m : List (Nat × α)) (k : Nat) (v : α) (p : Nat × α),
      p ∈ alSet m k v → p ∈ m ∨ p = (k, v)
  | [], _, _, p, hp => by
    rcases List.mem_singleton.mp hp with rfl
    exact Or.inr rfl
  | (k', v') :: rest, k, v, p, hp => by
    unfold alSet at hp
    split at hp
    · rcases List.mem_cons.mp hp with rfl | hp
      · exact Or.inr rfl
      · exact Or.inl (List.mem_cons_of_mem _ hp)
    · rcases List.mem_cons.mp hp with rfl | hp
      · exact Or.inl (List.mem_cons_self _ _)
      · rcases mem_alSet rest k v p hp with h | h
        · exact Or.inl (List.mem_cons_of_mem _ h)
        · exact Or.inr h

theorem getTravelSpeed_pos (edge : GraphEdge) (mode : RoutingMode) :
    0 < getTravelSpeed edge mode := by
  have hall : ∀ p ∈ DEFAULT_SPEEDS, (0 : ℚ) < p.2 := by decide
  unfold getTravelSpeed
  split
  · norm_num
  · split
    · norm_num
    · split
      · assumption
      · unfold alGetS
        cases hf : DEFAULT_SPEEDS.find? (fun p => p.1 = edge.highway) with
        | none => norm_num
        | some p =>
          have := hall p (List.mem_of_find?_eq_some hf)
          simpa using this

theorem getTravelTime_nonneg (edge : GraphEdge) (mode : RoutingMode)
    (h : 0 ≤ edge.distance) : 0 ≤ getTravelTime edge mode := by
  unfold getTravelTime
  have hs := getTravelSpeed_pos edge mode
  have : (0 : ℚ) < getTravelSpeed edge mode / (3.6 : ℚ) := by positivity
  positivity

theorem relaxStep_no_improve (graph : RoutingGraph) (hav : Hav)
    (mode : RoutingMode) (endId cur : Nat) (curG : Option ℚ) (edge : GraphEdge)
    (toNodeId : Nat) (st : AStarState)
    (hcurG : ∀ v, curG = some v → 0 ≤ v)
    (ht : 0 ≤ getTravelTime edge mode)
    (hto : alGet st.gScore toNodeId = some 0) :
    relaxStep graph hav mode endId cur curG edge toNodeId st = st := by
  cases hc : curG with
  | none => rfl
  | some v =>
    have hv := hcurG v hc
    unfold relaxStep
    have hcond : qLtInf (qAddInf (some v) (getTravelTime edge mode))
        (alGet st.gScore toNodeId) = false := by
      rw [hto]
      show decide (v + getTravelTime edge mode < 0) = false
      exact decide_eq_false (not_lt.mpr (add_nonneg hv ht))
    rw [hcond]
    simp

theorem relaxStep_gScore_nonneg (graph : RoutingGraph) (hav : Hav)
    (mode : RoutingMode) (endId cur : Nat) (curG : Option ℚ) (edge : GraphEdge)
    (toNodeId : Nat) (st : AStarState)
    (hcurG : ∀ v, curG = some v → 0 ≤ v)
    (ht : 0 ≤ getTravelTime edge mode)
    (hInv1 : ∀ kv ∈ st.gScore, 0 ≤ kv.2) :
    ∀ kv ∈ (relaxStep graph hav mode endId cur curG edge toNodeId st).gScore,
      0 ≤ kv.2 := by
  cases hc : curG with
  | none =>
    show ∀ kv ∈ st.gScore, 0 ≤ kv.2
    exact hInv1
  | some v =>
    have hv := hcurG v hc
    unfold relaxStep
    split
    · show ∀ kv ∈ alSet st.gScore toNodeId (v + getTravelTime edge mode), 0 ≤ kv.2
      intro kv hkv
      rcases mem_alSet _ _ _ kv hkv with h | h
      · exact hInv1 kv h
      · rw [h]
        exact add_nonneg hv ht
    · exact hInv1

theorem relaxStep_gScore_start (graph : RoutingGraph) (hav : Hav)
    (mode : RoutingMode) (endId cur : Nat) (curG : Option ℚ) (edge : GraphEdge)
    (toNodeId startNodeId : Nat) (st : AStarState)
    (hcurG : ∀ v, curG = some v → 0 ≤ v)
    (ht : 0 ≤ getTravelTime edge mode)
    (hs : alGet st.gScore startNodeId = some 0) :
    alGet (relaxStep graph hav mode endId cur curG edge toNodeId st).gScore
      startNodeId = some 0 := by
  by_cases hto : toNodeId = startNodeId
  · subst hto
    rw [relaxStep_no_improve graph hav mode endId cur curG edge toNodeId st
      hcurG ht hs]
    exact hs
  · cases hc : curG with
    | none => exact hs
    | some v =>
      unfold relaxStep
      split
      · show alGet (alSet st.gScore toNodeId (v + getTravelTime edge mode))
          startNodeId = some 0
        rw [alGet_alSet]
        rw [if_neg hto]
        exact hs
      · exact hs

theorem expandNode_barrier_free (graph : RoutingGraph) (hav : Hav)
    (mode : RoutingMode) (endId cur curWay : Nat) (curG : Option ℚ) :
    ∀ (es : List GraphEdge) (st : AStarState) (step : AStarStep),
      step ∈ (expandNode graph hav mode false endId cur curWay curG es st).1 →
      ∀ ed f t, step = AStarStep.explore ed f t →
      ∀ n, alGet graph.nodes t = some n → isBarrierBlocking n mode = false
  | [], _, step, hstep => by cases hstep
  | e :: rest, st, step, hstep => by
    rw [expandNode] at hstep
    split at hstep
    · exact expandNode_barrier_free graph hav mode endId cur curWay curG rest
        st step hstep
    · split at hstep
      · exact expandNode_barrier_free graph hav mode endId cur curWay curG rest
          st step hstep
      · split at hstep
        · exact expandNode_barrier_free graph hav mode endId cur curWay curG
            rest st step hstep
        · split at hstep
          · exact expandNode_barrier_free graph hav mode endId cur curWay curG
              rest st step hstep
          · rename_i hbar
            rcases List.mem_cons.mp hstep with rfl | hstep
            · intro ed f t heq n hn
              cases heq
              have hbar2 : barrierRejects graph mode false (targetOf e cur)
                  = false := by
                rcases Bool.eq_false_or_eq_true
                  (barrierRejects graph mode false (targetOf e cur)) with h | h
                · exact absurd h hbar
                · exact h
              unfold barrierRejects at hbar2
              simp only [Bool.not_false, Bool.true_and] at hbar2
              rw [hn] at hbar2
              exact hbar2
            · exact expandNode_barrier_free graph hav mode endId cur curWay
                curG rest _ step hstep

theorem aStarLoopF_barrier_free (graph : RoutingGraph) (hav : Hav)
    (mode : RoutingMode) (startNodeId endNodeId : Nat) :
    ∀ (fuel : Nat) (st : AStarState) (step : AStarStep),
      step ∈ aStarLoopF graph hav mode false startNodeId endNodeId fuel st →
      ∀ ed f t, step = AStarStep.explore ed f t →
      ∀ n, alGet graph.nodes t = some n → isBarrierBlocking n mode = false := by
  intro fuel
  induction fuel with
  | zero => intro st step hstep; cases hstep
  | succ n ih =>
    intro st step hstep
    rw [aStarLoopF] at hstep
    cases hpop : heapPop st.openSet with
    | none =>
      rw [hpop] at hstep
      simp only [List.mem_singleton] at hstep
      subst hstep
      intro ed f t heq
      cases heq
    | some pr =>
      obtain ⟨cur, rest⟩ := pr
      rw [hpop] at hstep
      simp only [] at hstep
      split at hstep
      · exact ih _ step hstep
      · split at hstep
        · simp only [List.mem_singleton] at hstep
          subst hstep
          intro ed f t heq
          cases heq
        · cases hadj : alGet graph.adjacency cur with
          | none =>
            rw [hadj] at hstep
            exact ih _ step hstep
          | some ns =>
            rw [hadj] at hstep
            simp only [] at hstep
            rcases List.mem_append.mp hstep with h | h
            · exact expandNode_barrier_free graph hav mode endNodeId cur _ _
                ns _ step h
            · exact ih _ step h

theorem setNodeBarrier_adjacency (graph : RoutingGraph) (nid : Nat)
    (b : Option String) :
    (setNodeBarrier graph nid b).adjacency = graph.adjacency := rfl

theorem restrictionRejects_setBarrier (graph : RoutingGraph) (nid : Nat)
    (b : Option String) (mode : RoutingMode) (ig : Bool)
    (currentWayId viaNodeId toWayId : Nat) :
    restrictionRejects (setNodeBarrier graph nid b) mode ig currentWayId
      viaNodeId toWayId =
      restrictionRejects graph mode ig currentWayId viaNodeId toWayId := rfl

theorem aStarFuel_setBarrier (graph : RoutingGraph) (nid : Nat)
    (b : Option String) (st : AStarState) :
    aStarFuel (setNodeBarrier graph nid b) st = aStarFuel graph st := rfl

theorem relaxStep_setBarrier (graph : RoutingGraph) (nid : Nat)
    (b : Option String) (hav : Hav) (mode : RoutingMode)
    (endNodeId currentId : Nat) (currentG : Option ℚ) (edge : GraphEdge)
    (toNodeId : Nat) (st : AStarState) :
    relaxStep (setNodeBarrier graph nid b) hav mode endNodeId currentId
      currentG edge toNodeId st =
      relaxStep graph hav mode endNodeId currentId currentG edge toNodeId st := by
  unfold relaxStep
  rw [heuristic_setBarrier]

theorem expandNode_skip_acc (g : RoutingGraph) (hav : Hav) (mode : RoutingMode)
    (ig : Bool) (endId cur curWay : Nat) (curG : Option ℚ) (e : GraphEdge)
    (rest : List GraphEdge) (st : AStarState)
    (h : isEdgeAccessible e mode = false) :
    expandNode g hav mode ig endId cur curWay curG (e :: rest) st =
      expandNode g hav mode ig endId cur curWay curG rest st := by
  rw [expandNode, if_pos h]

theorem expandNode_skip_dir (g : RoutingGraph) (hav : Hav) (mode : RoutingMode)
    (ig : Bool) (endId cur curWay : Nat) (curG : Option ℚ) (e : GraphEdge)
    (rest : List GraphEdge) (st : AStarState)
    (h1 : ¬ isEdgeAccessible e mode = false)
    (h2 : canTraverseDirection e cur mode ig = false) :
    expandNode g hav mode ig endId cur curWay curG (e :: rest) st =
      expandNode g hav mode ig endId cur curWay curG rest st := by
  rw [expandNode, if_neg h1, if_pos h2]

theorem expandNode_skip_res (g : RoutingGraph) (hav : Hav) (mode : RoutingMode)
    (ig : Bool) (endId cur curWay : Nat) (curG : Option ℚ) (e : GraphEdge)
    (rest : List GraphEdge) (st : AStarState)
    (h1 : ¬ isEdgeAccessible e mode = false)
    (h2 : ¬ canTraverseDirection e cur mode ig = false)
    (h3 : restrictionRejects g mode ig curWay cur e.wayId = true) :
    expandNode g hav mode ig endId cur curWay curG (e :: rest) st =
      expandNode g hav mode ig endId cur curWay curG rest st := by
  rw [expandNode, if_neg h1, if_neg h2, if_pos h3]

theorem expandNode_skip_bar (g : RoutingGraph) (hav : Hav) (mode : RoutingMode)
    (ig : Bool) (endId cur curWay : Nat) (curG : Option ℚ) (e : GraphEdge)
    (rest : List GraphEdge) (st : AStarState)
    (h1 : ¬ isEdgeAccessible e mode = false)
    (h2 : ¬ canTraverseDirection e cur mode ig = false)
    (h3 : ¬ restrictionRejects g mode ig curWay cur e.wayId = true)
    (h4 : barrierRejects g mode ig (targetOf e cur) = true) :
    expandNode g hav mode ig endId cur curWay curG (e :: rest) st =
      expandNode g hav mode ig endId cur curWay curG rest st := by
  rw [expandNode, if_neg h1, if_neg h2, if_neg h3, if_pos h4]

theorem expandNode_explore (g : RoutingGraph) (hav : Hav) (mode : RoutingMode)
    (ig : Bool) (endId cur curWay : Nat) (curG : Option ℚ) (e : GraphEdge)
    (rest : List GraphEdge) (st : AStarState)
    (h1 : ¬ isEdgeAccessible e mode = false)
    (h2 : ¬ canTraverseDirection e cur mode ig = false)
    (h3 : ¬ restrictionRejects g mode ig curWay cur e.wayId = true)
    (h4 : ¬ barrierRejects g mode ig (targetOf e cur) = true) :
    expandNode g hav mode ig endId cur curWay curG (e :: rest) st =
      (AStarStep.explore e cur (targetOf e cur) ::
        (expandNode g hav mode ig endId cur curWay curG rest
          (relaxStep g hav mode endId cur curG e (targetOf e cur) st)).1,
       (expandNode g hav mode ig endId cur curWay curG rest
         (relaxStep g hav mode endId cur curG e (targetOf e cur) st)).2) := by
  rw [expandNode, if_neg h1, if_neg h2, if_neg h3, if_neg h4]

theorem expandNode_bisim (graph : RoutingGraph) (hav : Hav)
    (mode : RoutingMode) (endNodeId cur curWay startNodeId : Nat)
    (curG : Option ℚ) (b : Option String)
    (hcurG : ∀ v, curG = some v → 0 ≤ v) :
    ∀ (es : List GraphEdge) (st : AStarState),
      (∀ e ∈ es, 0 ≤ e.distance) →
      (∀ kv ∈ st.gScore, 0 ≤ kv.2) →
      alGet st.gScore startNodeId = some 0 →
      (expandNode (setNodeBarrier graph startNodeId b) hav mode false endNodeId
          cur curWay curG es st).2 =
        (expandNode graph hav mode false endNodeId cur curWay curG es st).2 ∧
      (expandNode (setNodeBarrier graph startNodeId b) hav mode false endNodeId
          cur curWay curG es st).1.filter (keepStep startNodeId) =
        (expandNode graph hav mode false endNodeId cur curWay curG es
          st).1.filter (keepStep startNodeId) ∧
      (∀ kv ∈ (expandNode graph hav mode false endNodeId cur curWay curG es
          st).2.gScore, 0 ≤ kv.2) ∧
      alGet (expandNode graph hav mode false endNodeId cur curWay curG es
        st).2.gScore startNodeId = some 0 := by
  intro es
  induction es with
  | nil =>
    intro st _ h1 h2
    exact ⟨rfl, rfl, h1, h2⟩
  | cons e rest ih =>
    intro st hes h1 h2
    have hes' : ∀ x ∈ rest, 0 ≤ x.distance :=
      fun x hx => hes x (List.mem_cons_of_mem _ hx)
    have hed : 0 ≤ e.distance := hes e (List.mem_cons_self _ _)
    have ht0 : 0 ≤ getTravelTime e mode := getTravelTime_nonneg e mode hed
    by_cases hacc : isEdgeAccessible e mode = false
    · rw [expandNode_skip_acc (setNodeBarrier graph startNodeId b) hav mode
        false endNodeId cur curWay curG e rest st hacc,
        expandNode_skip_acc graph hav mode false endNodeId cur curWay curG e
          rest st hacc]
      exact ih st hes' h1 h2
    · by_cases hdir : canTraverseDirection e cur mode false = false
      · rw [expandNode_skip_dir (setNodeBarrier graph startNodeId b) hav mode
          false endNodeId cur curWay curG e rest st hacc hdir,
          expandNode_skip_dir graph hav mode false endNodeId cur curWay curG e
            rest st hacc hdir]
        exact ih st hes' h1 h2
      · by_cases hres : restrictionRejects graph mode false curWay cur e.wayId
            = true
        · rw [expandNode_skip_res (setNodeBarrier graph startNodeId b) hav mode
            false endNodeId cur curWay curG e rest st hacc hdir hres,
            expandNode_skip_res graph hav mode false endNodeId cur curWay curG
              e rest st hacc hdir hres]
          exact ih st hes' h1 h2
        · by_cases ht : targetOf e cur = startNodeId
          · have hto : alGet st.gScore (targetOf e cur) = some 0 := by
              rw [ht]; exact h2
            have hrelG : relaxStep graph hav mode endNodeId cur curG e
                (targetOf e cur) st = st :=
              relaxStep_no_improve graph hav mode endNodeId cur curG e
                (targetOf e cur) st hcurG ht0 hto
            have hrelG' : relaxStep (setNodeBarrier graph startNodeId b) hav
                mode endNodeId cur curG e (targetOf e cur) st = st :=
              relaxStep_no_improve (setNodeBarrier graph startNodeId b) hav
                mode endNodeId cur curG e (targetOf e cur) st hcurG ht0 hto
            have hk : keepStep startNodeId
                (AStarStep.explore e cur (targetOf e cur)) = false := by
              simp [keepStep, ht]
            by_cases hbarG' : barrierRejects (setNodeBarrier graph startNodeId
                b) mode false (targetOf e cur) = true
            · by_cases hbar : barrierRejects graph mode false (targetOf e cur)
                  = true
              · rw [expandNode_skip_bar (setNodeBarrier graph startNodeId b)
                  hav mode false endNodeId cur curWay curG e rest st hacc hdir
                  hres hbarG',
                  expandNode_skip_bar graph hav mode false endNodeId cur curWay
                    curG e rest st hacc hdir hres hbar]
                exact ih st hes' h1 h2
              · rw [expandNode_skip_bar (setNodeBarrier graph startNodeId b)
                  hav mode false endNodeId cur curWay curG e rest st hacc hdir
                  hres hbarG',
                  expandNode_explore graph hav mode false endNodeId cur curWay
                    curG e rest st hacc hdir hres hbar, hrelG]
                obtain ⟨ih2, ih1, ih3, ih4⟩ := ih st hes' h1 h2
                exact ⟨ih2, by simp [List.filter_cons, hk, ih1], ih3, ih4⟩
            · by_cases hbar : barrierRejects graph mode false (targetOf e cur)
                  = true
              · rw [expandNode_explore (setNodeBarrier graph startNodeId b)
                  hav mode false endNodeId cur curWay curG e rest st hacc hdir
                  hres hbarG', hrelG',
                  expandNode_skip_bar graph hav mode false endNodeId cur curWay
                    curG e rest st hacc hdir hres hbar]
                obtain ⟨ih2, ih1, ih3, ih4⟩ := ih st hes' h1 h2
                exact ⟨ih2, by simp [List.filter_cons, hk, ih1], ih3, ih4⟩
              · rw [expandNode_explore (setNodeBarrier graph startNodeId b)
                  hav mode false endNodeId cur curWay curG e rest st hacc hdir
                  hres hbarG', hrelG',
                  expandNode_explore graph hav mode false endNodeId cur curWay
                    curG e rest st hacc hdir hres hbar, hrelG]
                obtain ⟨ih2, ih1, ih3, ih4⟩ := ih st hes' h1 h2
                exact ⟨ih2, by simp [List.filter_cons, hk, ih1], ih3, ih4⟩
          · have hbeq : barrierRejects (setNodeBarrier graph startNodeId b)
                mode false (targetOf e cur) =
                barrierRejects graph mode false (targetOf e cur) :=
              barrierRejects_setBarrier_ne graph startNodeId b mode false
                (targetOf e cur) ht
            have hk : keepStep startNodeId
                (AStarStep.explore e cur (targetOf e cur)) = true := by
              simp [keepStep, ht]
            by_cases hbar : barrierRejects graph mode false (targetOf e cur)
                = true
            · have hbarG' : barrierRejects (setNodeBarrier graph startNodeId b)
                  mode false (targetOf e cur) = true := by rw [hbeq]; exact hbar
              rw [expandNode_skip_bar (setNodeBarrier graph startNodeId b) hav
                mode false endNodeId cur curWay curG e rest st hacc hdir hres
                hbarG',
                expandNode_skip_bar graph hav mode false endNodeId cur curWay
                  curG e rest st hacc hdir hres hbar]
              exact ih st hes' h1 h2
            · have hbarG' : ¬ barrierRejects (setNodeBarrier graph startNodeId
                  b) mode false (targetOf e cur) = true := by
                rw [hbeq]; exact hbar
              rw [expandNode_explore (setNodeBarrier graph startNodeId b) hav
                mode false endNodeId cur curWay curG e rest st hacc hdir hres
                hbarG',
                expandNode_explore graph hav mode false endNodeId cur curWay
                  curG e rest st hacc hdir hres hbar,
                relaxStep_setBarrier graph startNodeId b hav mode endNodeId cur
                  curG e (targetOf e cur) st]
              have hInvA : ∀ kv ∈ (relaxStep graph hav mode endNodeId cur curG
                  e (targetOf e cur) st).gScore, 0 ≤ kv.2 :=
                relaxStep_gScore_nonneg graph hav mode endNodeId cur curG e
                  (targetOf e cur) st hcurG ht0 h1
              have hInvB : alGet (relaxStep graph hav mode endNodeId cur curG e
                  (targetOf e cur) st).gScore startNodeId = some 0 :=
                relaxStep_gScore_start graph hav mode endNodeId cur curG e
                  (targetOf e cur) startNodeId st hcurG ht0 h2
              obtain ⟨ih2, ih1, ih3, ih4⟩ := ih _ hes' hInvA hInvB
              exact ⟨ih2, by simp [List.filter_cons, hk, ih1], ih3, ih4⟩

theorem aStarLoopF_bisim (graph : RoutingGraph) (hav : Hav)
    (mode : RoutingMode) (startNodeId endNodeId : Nat) (b : Option String)
    (hds : ∀ kv ∈ graph.adjacency, ∀ e ∈ kv.2, 0 ≤ e.distance) :
    ∀ (fuel : Nat) (st : AStarState),
      (∀ kv ∈ st.gScore, 0 ≤ kv.2) →
      alGet st.gScore startNodeId = some 0 →
      (aStarLoopF (setNodeBarrier graph startNodeId b) hav mode false
          startNodeId endNodeId fuel st).filter (keepStep startNodeId) =
        (aStarLoopF graph hav mode false startNodeId endNodeId fuel
          st).filter (keepStep startNodeId) := by
  intro fuel
  induction fuel with
  | zero => intro st _ _; rfl
  | succ n ih =>
    intro st h1 h2
    rw [aStarLoopF, aStarLoopF]
    cases hpop : heapPop st.openSet with
    | none => rfl
    | some pr =>
      obtain ⟨cur, rest⟩ := pr
      simp only []
      by_cases hcl : cur ∈ st.closed
      · simp only [if_pos hcl]
        exact ih _ h1 h2
      · simp only [if_neg hcl]
        by_cases hend : cur = endNodeId
        · simp only [if_pos hend]
        · simp only [if_neg hend]
          rw [setNodeBarrier_adjacency]
          cases hadj : alGet graph.adjacency cur with
          | none =>
            simp only [hadj]
            exact ih _ h1 h2
          | some ns =>
            simp only [hadj]
            have hns : ∀ e ∈ ns, 0 ≤ e.distance :=
              fun e he => hds _ (alGet_mem hadj) e he
            have hcurG : ∀ v, alGet st.gScore cur = some v → 0 ≤ v :=
              fun v hv => h1 _ (alGet_mem hv)
            obtain ⟨heq2, heq1, h1', h2'⟩ := expandNode_bisim graph hav mode
              endNodeId cur
              (match alGet st.cameFrom cur with
               | some entry => entry.edge.wayId
               | none => 0)
              startNodeId (alGet st.gScore cur) b hcurG ns
              { st with openSet := rest, closed := cur :: st.closed } hns h1 h2
            rw [List.filter_append, List.filter_append, heq1, heq2]
            rw [ih _ h1' h2']

/-- C10: the barrier check of `aStarRoute` applies only to the target node of
each candidate edge, never to the node being expanded.  Part (a): with
`ignoreRestrictions = false`, the target node of every `explore` step is free
of a mode-blocking barrier.  Part (b): a barrier tag on the start node never
suppresses exploration of the start node's outgoing edges, and the step
sequence filtered of explorations of edges leading back into the start node —
in particular the terminal `done`/`no-route` step with its route — is
independent of the start node's barrier tag (assuming the edge distances are
nonnegative, as produced by `parseOSM` via `haversine`).  The raw step
sequence is NOT independent of the start node's barrier tag: explorations of
edges leading back into the start are suppressed by a blocking barrier
(`C10_raw_trace_counterexample`). -/
theorem C10_barrier_scope_amended (graph : RoutingGraph) (hav : Hav)
    (mode : RoutingMode) (startNodeId endNodeId : Nat) (b : Option String)
    (hds : ∀ kv ∈ graph.adjacency, ∀ e ∈ kv.2, 0 ≤ e.distance) :
    (∀ step ∈ aStarRoute graph hav mode false startNodeId endNodeId,
       ∀ ed f t, step = AStarStep.explore ed f t →
       ∀ n, alGet graph.nodes t = some n →
         isBarrierBlocking n mode = false) ∧
    (aStarRoute (setNodeBarrier graph startNodeId b) hav mode false
        startNodeId endNodeId).filter (keepStep startNodeId) =
      (aStarRoute graph hav mode false startNodeId endNodeId).filter
        (keepStep startNodeId) := by
  constructor
  · intro step hstep ed f t heq n hn
    cases hE : alGet graph.nodes endNodeId with
    | none =>
      have hred : aStarRoute graph hav mode false startNodeId endNodeId =
          [AStarStep.noRoute] := by
        cases hS : alGet graph.nodes startNodeId <;> simp [aStarRoute, hE, hS]
      rw [hred, List.mem_singleton] at hstep
      rw [hstep] at heq
      cases heq
    | some en =>
      cases hS : alGet graph.nodes startNodeId with
      | none =>
        have hred : aStarRoute graph hav mode false startNodeId endNodeId =
            [AStarStep.noRoute] := by simp [aStarRoute, hE, hS]
        rw [hred, List.mem_singleton] at hstep
        rw [hstep] at heq
        cases heq
      | some sn =>
        by_cases hse : startNodeId = endNodeId
        · have hred : aStarRoute graph hav mode false startNodeId endNodeId =
              [AStarStep.done [] [startNodeId] 0] := by
            simp [aStarRoute, hE, hS, hse]
          rw [hred, List.mem_singleton] at hstep
          rw [hstep] at heq
          cases heq
        · have hred : aStarRoute graph hav mode false startNodeId endNodeId =
              aStarLoopF graph hav mode false startNodeId endNodeId
                (aStarFuel graph
                  { gScore := [(startNodeId, 0)], cameFrom := [],
                    openSet := heapPush []
                      (heuristic graph hav mode endNodeId startNodeId)
                      startNodeId,
                    closed := [] })
                { gScore := [(startNodeId, 0)], cameFrom := [],
                  openSet := heapPush []
                    (heuristic graph hav mode endNodeId startNodeId)
                    startNodeId,
                  closed := [] } := by
            simp [aStarRoute, hE, hS, hse]
          rw [hred] at hstep
          exact aStarLoopF_barrier_free graph hav mode startNodeId endNodeId
            _ _ step hstep ed f t heq n hn
  · cases hE : alGet graph.nodes endNodeId with
    | none =>
      have hE' : alGet (setNodeBarrier graph startNodeId b).nodes endNodeId =
          none := by rw [setNodeBarrier_nodes, hE]; rfl
      have hredL : aStarRoute (setNodeBarrier graph startNodeId b) hav mode
          false startNodeId endNodeId = [AStarStep.noRoute] := by
        cases hS' : alGet (setNodeBarrier graph startNodeId b).nodes
          startNodeId <;> simp [aStarRoute, hE', hS']
      have hredR : aStarRoute graph hav mode false startNodeId endNodeId =
          [AStarStep.noRoute] := by
        cases hS : alGet graph.nodes startNodeId <;> simp [aStarRoute, hE, hS]
      rw [hredL, hredR]
    | some en =>
      obtain ⟨en', hE'⟩ : ∃ x, alGet (setNodeBarrier graph startNodeId b).nodes
          endNodeId = some x := by
        rw [setNodeBarrier_nodes, hE]; exact ⟨_, rfl⟩
      cases hS : alGet graph.nodes startNodeId with
      | none =>
        have hS' : alGet (setNodeBarrier graph startNodeId b).nodes
            startNodeId = none := by rw [setNodeBarrier_nodes, hS]; rfl
        have hredL : aStarRoute (setNodeBarrier graph startNodeId b) hav mode
            false startNodeId endNodeId = [AStarStep.noRoute] := by
          simp [aStarRoute, hE', hS']
        have hredR : aStarRoute graph hav mode false startNodeId endNodeId =
            [AStarStep.noRoute] := by simp [aStarRoute, hE, hS]
        rw [hredL, hredR]
      | some sn =>
        obtain ⟨sn', hS'⟩ : ∃ x, alGet (setNodeBarrier graph startNodeId
            b).nodes startNodeId = some x := by
          rw [setNodeBarrier_nodes, hS]; exact ⟨_, rfl⟩
        by_cases hse : startNodeId = endNodeId
        · subst hse
          have hredL : aStarRoute (setNodeBarrier graph startNodeId b) hav
              mode false startNodeId startNodeId =
              [AStarStep.done [] [startNodeId] 0] := by
            simp [aStarRoute, hE', hS']
          have hredR : aStarRoute graph hav mode false startNodeId
              startNodeId = [AStarStep.done [] [startNodeId] 0] := by
            simp [aStarRoute, hE, hS]
          rw [hredL, hredR]
        · have hredR : aStarRoute graph hav mode false startNodeId endNodeId =
              aStarLoopF graph hav mode false startNodeId endNodeId
                (aStarFuel graph
                  { gScore := [(startNodeId, 0)], cameFrom := [],
                    openSet := heapPush []
                      (heuristic graph hav mode endNodeId startNodeId)
                      startNodeId,
                    closed := [] })
                { gScore := [(startNodeId, 0)], cameFrom := [],
                  openSet := heapPush []
                    (heuristic graph hav mode endNodeId startNodeId)
                    startNodeId,
                  closed := [] } := by
            simp [aStarRoute, hE, hS, hse]
          have hredL : aStarRoute (setNodeBarrier graph startNodeId b) hav
              mode false startNodeId endNodeId =
              aStarLoopF (setNodeBarrier graph startNodeId b) hav mode false
                startNodeId endNodeId
                (aStarFuel graph
                  { gScore := [(startNodeId, 0)], cameFrom := [],
                    openSet := heapPush []
                      (heuristic graph hav mode endNodeId startNodeId)
                      startNodeId,
                    closed := [] })
                { gScore := [(startNodeId, 0)], cameFrom := [],
                  openSet := heapPush []
                    (heuristic graph hav mode endNodeId startNodeId)
                    startNodeId,
                  closed := [] } := by
            simp [aStarRoute, hE', hS', hse, heuristic_setBarrier,
              aStarFuel_setBarrier]
          rw [hredL, hredR]
          apply aStarLoopF_bisim graph hav mode startNodeId endNodeId b hds
          · intro kv hkv
            have : kv = (startNodeId, (0 : ℚ)) := by simpa using hkv
            rw [this]
          · show alGet [(startNodeId, (0 : ℚ))] startNodeId = some 0
            simp [alGet]

theorem C10_barrier_scope_witness :
    (∀ kv ∈ lineGraph3.adjacency, ∀ e ∈ kv.2, 0 ≤ e.distance) ∧
    ((∀ step ∈ aStarRoute lineGraph3 hav0 RoutingMode.car false 1 3,
        ∀ ed f t, step = AStarStep.explore ed f t →
        ∀ n, alGet lineGraph3.nodes t = some n →
          isBarrierBlocking n RoutingMode.car = false) ∧
      (aStarRoute (setNodeBarrier lineGraph3 1 (some "bollard")) hav0
          RoutingMode.car false 1 3).filter (keepStep 1) =
        (aStarRoute lineGraph3 hav0 RoutingMode.car false 1 3).filter
          (keepStep 1)) :=
  ⟨by decide, C10_barrier_scope_amended lineGraph3 hav0 RoutingMode.car 1 3
    (some "bollard") (by decide)⟩

set_option maxRecDepth 4000 in
set_option maxHeartbeats 1000000 in
theorem C10_raw_trace_counterexample :
    ¬ (aStarRoute (setNodeBarrier lineGraph3 1 (some "bollard")) hav0
        RoutingMode.car false 1 3 =
      aStarRoute lineGraph3 hav0 RoutingMode.car false 1 3) := by
  have hA : aStarRoute lineGraph3 hav0 RoutingMode.car false 1 3 =
      [AStarStep.explore resEdge12 1 2, AStarStep.explore resEdge21 2 1,
       AStarStep.explore resEdge23 2 3,
       AStarStep.done [resEdge12, resEdge23] [1, 2, 3] 0] := by
    simp [aStarRoute, aStarFuel, edgeCount, lineGraph3, aStarLoopF, heapPop,
      heapPush, bubbleUpF, sinkDownF, heapSmallest, listSwap, expandNode,
      relaxStep, targetOf, barrierRejects, restrictionRejects, isRestricted,
      heuristic, getTravelTime, getTravelSpeed, getMaxSpeed, isEdgeAccessible,
      generalAccess, denyAccess, accessFor, canTraverseDirection,
      isBarrierBlocking, alGet, alSet, alGetS, qLtInf, qAddInf, walkBack,
      resEdge12, resEdge21, resEdge23, resEdge32, defaultEdge, nodeW1, nodeW2,
      nodeW3, hav0, ROAD_ACCESS, DEFAULT_SPEEDS, CAR_BLOCKING_BARRIERS,
      DENY_VALUES, List.find?, defaultNode]
  have hB : aStarRoute (setNodeBarrier lineGraph3 1 (some "bollard")) hav0
      RoutingMode.car false 1 3 =
      [AStarStep.explore resEdge12 1 2, AStarStep.explore resEdge23 2 3,
       AStarStep.done [resEdge12, resEdge23] [1, 2, 3] 0] := by
    simp [aStarRoute, aStarFuel, edgeCount, lineGraph3, setNodeBarrier,
      aStarLoopF, heapPop, heapPush, bubbleUpF, sinkDownF, heapSmallest,
      listSwap, expandNode, relaxStep, targetOf, barrierRejects,
      restrictionRejects, isRestricted, heuristic, getTravelTime,
      getTravelSpeed, getMaxSpeed, isEdgeAccessible, generalAccess, denyAccess,
      accessFor, canTraverseDirection, isBarrierBlocking, alGet, alSet, alGetS,
      qLtInf, qAddInf, walkBack, resEdge12, resEdge21, resEdge23, resEdge32,
      defaultEdge, nodeW1, nodeW2, nodeW3, hav0, ROAD_ACCESS, DEFAULT_SPEEDS,
      CAR_BLOCKING_BARRIERS, DENY_VALUES, List.find?, defaultNode]
  intro h
  rw [hA, hB] at h
  exact absurd h (by decide)
